import Mathlib

/-!
# Verification of the SD-card test engine (`ui_sd_card_debug.cpp`)

This file gives a shallow embedding of the `SDCardTestThread` class from
`firmware/application/ui_sd_card_debug.cpp` and proves properties of its
write/read phase orchestration, statistics accumulation, and pattern oracle.

Modelling conventions:
* machine integers (`size_t`, `halrtcnt_t`, `lfsr_word_t`) are `Nat`, with
  explicit `% 2^32` where 32-bit wraparound matters (timer subtraction);
* the injected collaborators (heap allocation, file open/write/read/is-ready,
  the cooperative-termination flag, the free-running hardware counter, and the
  data delivered by `f_read`) are fields of an `Env` record: one run of the
  engine is a pure function of the `Env`;
* the mutable member state (`_stats`, plus instrumentation for the file
  handle, the test file's existence and whether the read phase was entered)
  is an explicit `St` record threaded through the code;
* the cooperative-termination flag is monotone in the real RTOS, so it is
  modelled by `termAfter : Option Nat`: the n-th observation of the flag reads
  `true` exactly when `termAfter = some k` with `k ≤ n`;
* the `while` loops are fuel-indexed recursions; the fuel `loopFuel = 1025`
  strictly exceeds the largest possible number of loop entries (1024 chunks
  of 16384 bytes reach the 16 MiB target, plus the final condition check).
-/

namespace SDCardTestThread

/-- `write_size` from the source: bytes per chunk. -/
def write_size : Nat := 16384

/-- `bytes_to_write` from the source: 16 MiB. -/
def bytes_to_write : Nat := 16 * 1024 * 1024

/-- `bytes_to_read` from the source. -/
def bytes_to_read : Nat := bytes_to_write

/-- Words per chunk: `sizeof(*buffer.get()) / sizeof(lfsr_word_t)` with
32-bit `lfsr_word_t`. -/
def wordsPerChunk : Nat := write_size / 4

/-- Modulus of the 32-bit hardware counter `halrtcnt_t`. -/
def HAL_MOD : Nat := 2 ^ 32

/-- Fuel bound for the transfer loops: 1024 completed chunks reach the byte
target, so at most 1025 loop entries occur. -/
def loopFuel : Nat := 1025

/-- Modelled from the spec: `lfsr_iterate`, the LFSR advance rule of
`lfsr_random.cpp`, which is not part of this repository snapshot. The spec
describes a maximal-length LFSR advanced one step per emitted word and states
(§9) that the exact bit sequence is internal-consistency-only, so a concrete
32-bit Galois step is chosen here. -/
def lfsr_iterate (v : Nat) : Nat :=
  if v % 2 = 1 then (v / 2) ^^^ 0xD0000001 else v / 2

/-- Modelled from the spec: `lfsr_fill(v, buffer, word_count)` of
`lfsr_random.cpp` (not in this snapshot) — advance the state once per word and
emit each advanced state; returns the advanced state and the emitted words. -/
def lfsr_fill : Nat → Nat → Nat × List Nat
  | v, 0 => (v, [])
  | v, n + 1 =>
    let v2 := lfsr_iterate v
    let p := lfsr_fill v2 n
    (p.1, v2 :: p.2)

/-- Modelled from the spec: `lfsr_compare(v, buffer, word_count)` of
`lfsr_random.cpp` (not in this snapshot) — regenerate the expected words with
the identical advance rule, compare element-by-element, return whether all
words matched together with the advanced state. -/
def lfsr_compare : Nat → List Nat → Nat × Bool
  | v, [] => (v, true)
  | v, w :: rest =>
    let v2 := lfsr_iterate v
    let p := lfsr_compare v2 rest
    (p.1, (w == v2) && p.2)

/-- The LFSR state after `i` whole chunks of the phase stream that starts at
seed 1 (`lfsr_word_t v = 1` in both phases). -/
def patternChunkState : Nat → Nat
  | 0 => 1
  | i + 1 => (lfsr_fill (patternChunkState i) wordsPerChunk).1

/-- The words of the `i`-th chunk of the phase stream that starts at seed 1 —
exactly what the write phase stores in the `i`-th chunk of the test file. -/
def patternChunk (i : Nat) : List Nat :=
  (lfsr_fill (patternChunkState i) wordsPerChunk).2

/-- The `j`-th word of the `i`-th pattern chunk, as a function (the shape in
which an uncorrupted storage device returns the file's contents). -/
def patternWord (i j : Nat) : Nat := (patternChunk i).getD j 0

/-- The `Result` enumeration of `SDCardTestThread`. -/
inductive Result where
  | FailCompare
  | FailReadIncomplete
  | FailWriteIncomplete
  | FailAbort
  | FailFileOpenRead
  | FailFileOpenWrite
  | FailHeap
  | FailThread
  | Incomplete
  | OK
deriving DecidableEq, Repr

/-- The signed integer value each `Result` enumerator carries in the source. -/
def resultCode : Result → Int
  | Result.FailCompare => -8
  | Result.FailReadIncomplete => -7
  | Result.FailWriteIncomplete => -6
  | Result.FailAbort => -5
  | Result.FailFileOpenRead => -4
  | Result.FailFileOpenWrite => -3
  | Result.FailHeap => -2
  | Result.FailThread => -1
  | Result.Incomplete => 0
  | Result.OK => 1

/-- The `Stats` structure of `SDCardTestThread`; all fields initialise to 0. -/
structure Stats where
  write_duration_min : Nat := 0
  write_duration_max : Nat := 0
  write_test_duration : Nat := 0
  write_bytes : Nat := 0
  write_count : Nat := 0
  read_duration_min : Nat := 0
  read_duration_max : Nat := 0
  read_test_duration : Nat := 0
  read_bytes : Nat := 0
  read_count : Nat := 0
deriving DecidableEq, Repr

/-- The injected collaborators of one run (storage driver, heap, RTOS
termination flag, hardware counter). Boolean functions are indexed by the
loop-iteration number at which the call is made; `timer` is indexed by the
number of `halGetCounterValue()` calls already made; `readWord i j` is the
`j`-th 32-bit word the storage driver deposits in the buffer on the `i`-th
successful read call. -/
structure Env where
  writeAllocOk : Bool
  readAllocOk : Bool
  openWriteOk : Bool
  openReadOk : Bool
  writeReady : Nat → Bool
  readReady : Nat → Bool
  writeOk : Nat → Bool
  readOk : Nat → Bool
  readWord : Nat → Nat → Nat
  termAfter : Option Nat
  timer : Nat → Nat

/-- The threaded mutable state: the `_stats` member, the count of
`chThdShouldTerminate()` observations made (`chk`), the count of
`halGetCounterValue()` calls made (`tmr`), plus instrumentation: whether the
test file currently exists, the number of open file handles, and whether the
read phase was entered. -/
structure St where
  stats : Stats := {}
  chk : Nat := 0
  tmr : Nat := 0
  fileExists : Bool := false
  openHandles : Nat := 0
  readEntered : Bool := false
deriving DecidableEq, Repr

/-- The state at thread start. -/
def initSt : St := {}

/-- `chThdShouldTerminate()` at the `n`-th observation. -/
def checkTerm (env : Env) (n : Nat) : Bool :=
  match env.termAfter with
  | none => false
  | some k => decide (k ≤ n)

/-- `halGetCounterValue()` at the `n`-th call: a 32-bit counter reading. -/
def rdTimer (env : Env) (n : Nat) : Nat := env.timer n % HAL_MOD

/-- 32-bit wraparound subtraction `b - a` on counter readings, as performed
on `halrtcnt_t` values. -/
def wrapSub (b a : Nat) : Nat := (b + HAL_MOD - a % HAL_MOD) % HAL_MOD

/-- The minimum-duration update of lines 159-161 / 199-201:
`if (min == 0 || d < min) min = d`. -/
def updateMin (mn d : Nat) : Nat := if mn = 0 ∨ d < mn then d else mn

/-- The maximum-duration update of lines 162-164 / 202-204:
`if (d > max) max = d`. -/
def updateMax (mx d : Nat) : Nat := if d > mx then d else mx

/-- The stats mutation performed by one completed write chunk
(lines 155-164). -/
def writeStep (d : Nat) (s : Stats) : Stats :=
  { s with
    write_bytes := s.write_bytes + write_size
    write_count := s.write_count + 1
    write_duration_min := updateMin s.write_duration_min d
    write_duration_max := updateMax s.write_duration_max d }

/-- The stats mutation performed by one completed read chunk
(lines 195-204). -/
def readStep (d : Nat) (s : Stats) : Stats :=
  { s with
    read_bytes := s.read_bytes + write_size
    read_count := s.read_count + 1
    read_duration_min := updateMin s.read_duration_min d
    read_duration_max := updateMax s.read_duration_max d }

/-- The 4096-word buffer contents delivered by the `i`-th successful
`file.read` call. -/
def readChunkData (env : Env) (i : Nat) : List Nat :=
  (List.range wordsPerChunk).map (env.readWord i)

/-- The write loop (lines 144-165). Arguments: fuel, iteration number `i`,
LFSR state `v`, threaded state. Returns the final LFSR state and state. -/
def writeLoop (env : Env) : Nat → Nat → Nat → St → Nat × St
  | 0, _, v, st => (v, st)
  | fuel + 1, i, v, st =>
    let t := checkTerm env st.chk
    let st1 : St := { st with chk := st.chk + 1 }
    if t then (v, st1)
    else if env.writeReady i = false then (v, st1)
    else if st1.stats.write_bytes < bytes_to_write then
      let v2 := (lfsr_fill v wordsPerChunk).1
      let st2 : St := { st1 with tmr := st1.tmr + 1 }
      let ws := rdTimer env st1.tmr
      if env.writeOk i = false then (v2, st2)
      else
        let we := rdTimer env st2.tmr
        let st3 : St := { st2 with tmr := st2.tmr + 1 }
        let d := wrapSub we ws
        let st4 : St := { st3 with stats := writeStep d st3.stats }
        writeLoop env fuel (i + 1) v2 st4
    else (v, st1)

/-- The read loop (lines 189-212). Returns `some FailCompare` if the loop
exited through the verification-mismatch `return`, `none` otherwise, plus the
threaded state. -/
def readLoop (env : Env) : Nat → Nat → Nat → St → Option Result × St
  | 0, _, _, st => (none, st)
  | fuel + 1, i, v, st =>
    let t := checkTerm env st.chk
    let st1 : St := { st with chk := st.chk + 1 }
    if t then (none, st1)
    else if env.readReady i = false then (none, st1)
    else if st1.stats.read_bytes < bytes_to_read then
      let st2 : St := { st1 with tmr := st1.tmr + 1 }
      let rs := rdTimer env st1.tmr
      if env.readOk i = false then (none, st2)
      else
        let re := rdTimer env st2.tmr
        let st3 : St := { st2 with tmr := st2.tmr + 1 }
        let d := wrapSub re rs
        let st4 : St := { st3 with stats := readStep d st3.stats }
        let p := lfsr_compare v (readChunkData env i)
        if p.2 = false then (some Result.FailCompare, st4)
        else readLoop env fuel (i + 1) p.1 st4
    else (none, st1)

/-- `SDCardTestThread::write` (lines 130-173). -/
def write (env : Env) (st : St) : Result × St :=
  if env.writeAllocOk = false then (Result.FailHeap, st)
  else if env.openWriteOk = false then (Result.FailFileOpenWrite, st)
  else
    let stA : St := { st with fileExists := true, openHandles := st.openHandles + 1 }
    let ts := rdTimer env stA.tmr
    let stB : St := { stA with tmr := stA.tmr + 1 }
    let p := writeLoop env loopFuel 0 1 stB
    let stC : St := { p.2 with openHandles := p.2.openHandles - 1 }
    let te := rdTimer env stC.tmr
    let stD : St := { stC with tmr := stC.tmr + 1 }
    (Result.OK,
      { stD with stats := { stD.stats with write_test_duration := wrapSub te ts } })

/-- `SDCardTestThread::read` (lines 175-220). On the verification-mismatch
path the source returns without calling `file.close()`; the handle release
there is modelled from the spec: `File` (declared in `file.hpp`, not in this
snapshot) closes any open handle in its destructor (scoped-resource
discipline, spec §5). -/
def read (env : Env) (st : St) : Result × St :=
  let st0 : St := { st with readEntered := true }
  if env.readAllocOk = false then (Result.FailHeap, st0)
  else if env.openReadOk = false then (Result.FailFileOpenRead, st0)
  else
    let stA : St := { st0 with openHandles := st0.openHandles + 1 }
    let ts := rdTimer env stA.tmr
    let stB : St := { stA with tmr := stA.tmr + 1 }
    let p := readLoop env loopFuel 0 1 stB
    match p.1 with
    | some r => (r, { p.2 with openHandles := p.2.openHandles - 1 })
    | none =>
      let stC : St := { p.2 with openHandles := p.2.openHandles - 1 }
      let te := rdTimer env stC.tmr
      let stD : St := { stC with tmr := stC.tmr + 1 }
      (Result.OK,
        { stD with stats := { stD.stats with read_test_duration := wrapSub te ts } })

/-- `SDCardTestThread::run` (lines 96-128). -/
def run (env : Env) : Result × St :=
  let p := write env initSt
  if p.1 ≠ Result.OK then p
  else if p.2.stats.write_bytes < bytes_to_write then
    (Result.FailWriteIncomplete, p.2)
  else
    let t := checkTerm env p.2.chk
    let st1 : St := { p.2 with chk := p.2.chk + 1 }
    if t then (Result.FailAbort, st1)
    else
      let q := read env st1
      if q.1 ≠ Result.OK then q
      else
        let st2 : St := { q.2 with fileExists := false }
        if st2.stats.read_bytes < bytes_to_read then
          (Result.FailReadIncomplete, st2)
        else
          let t2 := checkTerm env st2.chk
          let st3 : St := { st2 with chk := st2.chk + 1 }
          if t2 then (Result.FailAbort, st3) else (Result.OK, st3)

/-- The hardware counter readings are strictly increasing over the first `N`
observations (a free-running counter sampled without wrapping in between). -/
def TimerOk (env : Env) (N : Nat) : Prop :=
  ∀ n, n + 1 < N → rdTimer env n < rdTimer env (n + 1)

/-- Loop-entry state of the write phase: buffer allocated, file created and
opened, `test_start` sampled. -/
def wEntry (st : St) : St :=
  { st with
    fileExists := true
    openHandles := st.openHandles + 1
    tmr := st.tmr + 1 }

/-- Final state of a write phase whose allocation and open succeeded. -/
def wFinal (env : Env) (st : St) : St :=
  { (writeLoop env loopFuel 0 1 (wEntry st)).2 with
    openHandles := (writeLoop env loopFuel 0 1 (wEntry st)).2.openHandles - 1
    tmr := (writeLoop env loopFuel 0 1 (wEntry st)).2.tmr + 1
    stats := { (writeLoop env loopFuel 0 1 (wEntry st)).2.stats with
      write_test_duration := wrapSub
        (rdTimer env (writeLoop env loopFuel 0 1 (wEntry st)).2.tmr)
        (rdTimer env st.tmr) } }

/-- Loop-entry state of the read phase. -/
def rEntry (st : St) : St :=
  { st with
    readEntered := true
    openHandles := st.openHandles + 1
    tmr := st.tmr + 1 }

/-- Final state of a read phase whose allocation and open succeeded and whose
loop exited normally. -/
def rFinal (env : Env) (st : St) : St :=
  { (readLoop env loopFuel 0 1 (rEntry st)).2 with
    openHandles := (readLoop env loopFuel 0 1 (rEntry st)).2.openHandles - 1
    tmr := (readLoop env loopFuel 0 1 (rEntry st)).2.tmr + 1
    stats := { (readLoop env loopFuel 0 1 (rEntry st)).2.stats with
      read_test_duration := wrapSub
        (rdTimer env (readLoop env loopFuel 0 1 (rEntry st)).2.tmr)
        (rdTimer env st.tmr) } }

/-- Final state of a read phase that exited through the verification-mismatch
return (the handle is released by the `File` destructor, spec-modelled). -/
def rFinalFC (env : Env) (st : St) : St :=
  { (readLoop env loopFuel 0 1 (rEntry st)).2 with
    openHandles := (readLoop env loopFuel 0 1 (rEntry st)).2.openHandles - 1 }

/-! ## Concrete environments for witnesses and counterexamples -/

/-- A fault-free environment: every injected call succeeds, the storage
returns exactly the pattern that was written, no cancellation is ever
requested, and the counter advances by one per call. -/
def envAllOk : Env where
  writeAllocOk := true
  readAllocOk := true
  openWriteOk := true
  openReadOk := true
  writeReady := fun _ => true
  readReady := fun _ => true
  writeOk := fun _ => true
  readOk := fun _ => true
  readWord := patternWord
  termAfter := none
  timer := fun n => n

/-- Fault-free except that cancellation is observed from the second
termination check on (so exactly one write chunk completes). -/
def envCancelOne : Env := { envAllOk with termAfter := some 1 }

/-- Fault-free except that every write call fails (the first chunk's write
returns false). -/
def envWriteFail : Env := { envAllOk with writeOk := fun _ => false }

/-- Fault-free except that the read phase's buffer allocation fails. -/
def envReadAllocFail : Env := { envAllOk with readAllocOk := false }

/-- Fault-free except that every read call fails. -/
def envReadFail : Env := { envAllOk with readOk := fun _ => false }

/-- One write chunk of duration 5 inside a phase of total duration 100
(`is_ready` turns false after the first chunk): counter readings
0, 10, 15, 100. -/
def envChunkGap : Env :=
  { envAllOk with
    writeReady := fun i => decide (i = 0)
    timer := fun n => if n = 0 then 0 else if n = 1 then 10
      else if n = 2 then 15 else 100 }

/-- Fault-free with a strictly increasing counter, but `is_ready` turns
false after the first write chunk: the run completes exactly one chunk. -/
def envOneChunk : Env :=
  { envAllOk with
    writeReady := fun i => decide (i = 0) }

/-- Two write chunks with durations 5 then 0 (counter readings
0, 10, 15, 20, 20, 30), then `is_ready` turns false. -/
def envZeroDur : Env :=
  { envAllOk with
    writeReady := fun i => decide (i < 2)
    timer := fun n => [0, 10, 15, 20, 20, 30].getD n 0 }

/-- The per-direction read statistics of a state are all at their initial
zero values. -/
def readStatsZero (st : St) : Prop :=
  st.stats.read_duration_min = 0 ∧ st.stats.read_duration_max = 0 ∧
  st.stats.read_test_duration = 0 ∧ st.stats.read_bytes = 0 ∧
  st.stats.read_count = 0

/-! ## Basic lemmas about the pattern oracle -/

theorem lfsr_fill_length (v n : Nat) : (lfsr_fill v n).2.length = n := by
  induction n generalizing v with
  | zero => rfl
  | succ n ih => simp [lfsr_fill, ih]

/-- Round trip: comparing a buffer against the very stream that produced it
succeeds, and the verifier's state advances exactly as the generator's did. -/
theorem lfsr_roundtrip (n v : Nat) :
    lfsr_compare v (lfsr_fill v n).2 = ((lfsr_fill v n).1, true) := by
  induction n generalizing v with
  | zero => rfl
  | succ n ih => simp [lfsr_fill, lfsr_compare, ih]

/-- A list is recovered from its `getD` function over its index range. -/
theorem getD_range_map (l : List Nat) :
    (List.range l.length).map (fun j => l.getD j 0) = l := by
  apply List.ext_getElem
  · simp
  · intro i h1 h2
    simp [List.getD_eq_getElem?_getD, List.getElem?_eq_getElem h2]

/-- An environment whose `readWord` is `patternWord` delivers exactly the
pattern chunks. -/
theorem readChunkData_patternWord (env : Env) (h : env.readWord = patternWord)
    (i : Nat) : readChunkData env i = patternChunk i := by
  have hl : (patternChunk i).length = wordsPerChunk := lfsr_fill_length _ _
  calc readChunkData env i
      = (List.range (patternChunk i).length).map (fun j => (patternChunk i).getD j 0) := by
        rw [readChunkData, h, hl]; rfl
    _ = patternChunk i := getD_range_map _

/-! ## Frame lemmas: what each loop leaves untouched -/

theorem writeLoop_frame (env : Env) :
    ∀ fuel i v st, ((writeLoop env fuel i v st).2.stats.read_duration_min
        = st.stats.read_duration_min)
      ∧ ((writeLoop env fuel i v st).2.stats.read_duration_max
        = st.stats.read_duration_max)
      ∧ ((writeLoop env fuel i v st).2.stats.read_test_duration
        = st.stats.read_test_duration)
      ∧ ((writeLoop env fuel i v st).2.stats.read_bytes = st.stats.read_bytes)
      ∧ ((writeLoop env fuel i v st).2.stats.read_count = st.stats.read_count)
      ∧ ((writeLoop env fuel i v st).2.stats.write_test_duration
        = st.stats.write_test_duration)
      ∧ ((writeLoop env fuel i v st).2.fileExists = st.fileExists)
      ∧ ((writeLoop env fuel i v st).2.openHandles = st.openHandles)
      ∧ ((writeLoop env fuel i v st).2.readEntered = st.readEntered) := by
  intro fuel
  induction fuel with
  | zero => intro i v st; simp [writeLoop]
  | succ n ih =>
    intro i v st
    simp only [writeLoop]
    split
    · simp
    · split
      · simp
      · split
        · split
          · simp
          · simpa [writeStep] using ih (i + 1) _ _
        · simp

theorem readLoop_frame (env : Env) :
    ∀ fuel i v st, ((readLoop env fuel i v st).2.stats.write_duration_min
        = st.stats.write_duration_min)
      ∧ ((readLoop env fuel i v st).2.stats.write_duration_max
        = st.stats.write_duration_max)
      ∧ ((readLoop env fuel i v st).2.stats.write_test_duration
        = st.stats.write_test_duration)
      ∧ ((readLoop env fuel i v st).2.stats.write_bytes = st.stats.write_bytes)
      ∧ ((readLoop env fuel i v st).2.stats.write_count = st.stats.write_count)
      ∧ ((readLoop env fuel i v st).2.stats.read_test_duration
        = st.stats.read_test_duration)
      ∧ ((readLoop env fuel i v st).2.fileExists = st.fileExists)
      ∧ ((readLoop env fuel i v st).2.openHandles = st.openHandles)
      ∧ ((readLoop env fuel i v st).2.readEntered = st.readEntered) := by
  intro fuel
  induction fuel with
  | zero => intro i v st; simp [readLoop]
  | succ n ih =>
    intro i v st
    simp only [readLoop]
    split
    · simp
    · split
      · simp
      · split
        · split
          · simp
          · split
            · simp [readStep]
            · simpa [readStep] using ih (i + 1) _ _
        · simp

/-! ## Byte/count coupling -/

theorem writeLoop_bytes_count (env : Env) :
    ∀ fuel i v st, st.stats.write_bytes = st.stats.write_count * write_size →
      (writeLoop env fuel i v st).2.stats.write_bytes
        = (writeLoop env fuel i v st).2.stats.write_count * write_size := by
  intro fuel
  induction fuel with
  | zero => intro i v st h; simpa [writeLoop] using h
  | succ n ih =>
    intro i v st h
    simp only [writeLoop]
    split
    · simpa using h
    · split
      · simpa using h
      · split
        · split
          · simpa using h
          · apply ih
            simp [writeStep, h, Nat.succ_mul]
        · simpa using h

theorem readLoop_bytes_count (env : Env) :
    ∀ fuel i v st, st.stats.read_bytes = st.stats.read_count * write_size →
      (readLoop env fuel i v st).2.stats.read_bytes
        = (readLoop env fuel i v st).2.stats.read_count * write_size := by
  intro fuel
  induction fuel with
  | zero => intro i v st h; simpa [readLoop] using h
  | succ n ih =>
    intro i v st h
    simp only [readLoop]
    split
    · simpa using h
    · split
      · simpa using h
      · split
        · split
          · simpa using h
          · split
            · simp [readStep, h, Nat.succ_mul]
            · apply ih
              simp [readStep, h, Nat.succ_mul]
        · simpa using h

/-! ## Phase-level frame lemmas -/

theorem write_phase_frame (env : Env) (st : St) :
    ((write env st).2.stats.read_duration_min = st.stats.read_duration_min)
    ∧ ((write env st).2.stats.read_duration_max = st.stats.read_duration_max)
    ∧ ((write env st).2.stats.read_test_duration = st.stats.read_test_duration)
    ∧ ((write env st).2.stats.read_bytes = st.stats.read_bytes)
    ∧ ((write env st).2.stats.read_count = st.stats.read_count)
    ∧ ((write env st).2.openHandles = st.openHandles)
    ∧ ((write env st).2.readEntered = st.readEntered) := by
  simp only [write]
  split
  · simp
  · split
    · simp
    · obtain ⟨h1, h2, h3, h4, h5, _h6, _h7, h8, h9⟩ := writeLoop_frame env loopFuel 0 1
        { st with fileExists := true, openHandles := st.openHandles + 1,
                  tmr := st.tmr + 1 }
      simp_all

theorem read_phase_frame (env : Env) (st : St) :
    ((read env st).2.stats.write_duration_min = st.stats.write_duration_min)
    ∧ ((read env st).2.stats.write_duration_max = st.stats.write_duration_max)
    ∧ ((read env st).2.stats.write_test_duration = st.stats.write_test_duration)
    ∧ ((read env st).2.stats.write_bytes = st.stats.write_bytes)
    ∧ ((read env st).2.stats.write_count = st.stats.write_count)
    ∧ ((read env st).2.openHandles = st.openHandles)
    ∧ ((read env st).2.readEntered = true)
    ∧ ((read env st).2.fileExists = st.fileExists) := by
  simp only [read]
  split
  · simp
  · split
    · simp
    · obtain ⟨h1, h2, h3, h4, h5, _h6, h7, h8, h9⟩ := readLoop_frame env loopFuel 0 1
        { st with readEntered := true, openHandles := st.openHandles + 1,
                  tmr := st.tmr + 1 }
      split <;> simp_all

theorem write_bytes_count (env : Env) (st : St)
    (h : st.stats.write_bytes = st.stats.write_count * write_size) :
    (write env st).2.stats.write_bytes
      = (write env st).2.stats.write_count * write_size := by
  simp only [write]
  split
  · simpa using h
  · split
    · simpa using h
    · have := writeLoop_bytes_count env loopFuel 0 1
        { st with fileExists := true, openHandles := st.openHandles + 1,
                  tmr := st.tmr + 1 } (by simpa using h)
      simpa using this

theorem read_bytes_count (env : Env) (st : St)
    (h : st.stats.read_bytes = st.stats.read_count * write_size) :
    (read env st).2.stats.read_bytes
      = (read env st).2.stats.read_count * write_size := by
  simp only [read]
  split
  · simpa using h
  · split
    · simpa using h
    · have := readLoop_bytes_count env loopFuel 0 1
        { st with readEntered := true, openHandles := st.openHandles + 1,
                  tmr := st.tmr + 1 } (by simpa using h)
      split <;> simpa using this

/-- Every branch of `run` ends with the stats of either the write phase's
final state or the read phase's final state. -/
theorem run_stats_cases (env : Env) :
    (run env).2.stats = (write env initSt).2.stats ∨
    (run env).2.stats
      = (read env { (write env initSt).2 with
          chk := (write env initSt).2.chk + 1 }).2.stats := by
  simp only [run]
  split
  · left; rfl
  · split
    · left; rfl
    · split
      · left; rfl
      · split
        · right; rfl
        · split
          · right; rfl
          · split
            · right; rfl
            · right; rfl

/-- Every branch of `run` ends with the handle count of either the write
phase's final state or the read phase's final state. -/
theorem run_handles_cases (env : Env) :
    (run env).2.openHandles = (write env initSt).2.openHandles ∨
    (run env).2.openHandles
      = (read env { (write env initSt).2 with
          chk := (write env initSt).2.chk + 1 }).2.openHandles := by
  simp only [run]
  split
  · left; rfl
  · split
    · left; rfl
    · split
      · left; rfl
      · split
        · right; rfl
        · split
          · right; rfl
          · split
            · right; rfl
            · right; rfl

/-! ## One-iteration unfolding lemmas for the loops -/

theorem writeLoop_exit_term (env : Env) (n i v : Nat) (st : St)
    (h1 : checkTerm env st.chk = true) :
    writeLoop env (n + 1) i v st = (v, { st with chk := st.chk + 1 }) := by
  simp only [writeLoop, h1]
  rfl

theorem writeLoop_exit_ready (env : Env) (n i v : Nat) (st : St)
    (h1 : checkTerm env st.chk = false) (h2 : env.writeReady i = false) :
    writeLoop env (n + 1) i v st = (v, { st with chk := st.chk + 1 }) := by
  simp only [writeLoop, h1, h2]
  rfl

theorem writeLoop_exit_full (env : Env) (n i v : Nat) (st : St)
    (h1 : checkTerm env st.chk = false) (h2 : env.writeReady i = true)
    (h3 : ¬st.stats.write_bytes < bytes_to_write) :
    writeLoop env (n + 1) i v st = (v, { st with chk := st.chk + 1 }) := by
  simp only [writeLoop, h1, h2, h3]
  rfl

theorem writeLoop_exit_wfail (env : Env) (n i v : Nat) (st : St)
    (h1 : checkTerm env st.chk = false) (h2 : env.writeReady i = true)
    (h3 : st.stats.write_bytes < bytes_to_write)
    (h4 : env.writeOk i = false) :
    writeLoop env (n + 1) i v st
      = ((lfsr_fill v wordsPerChunk).1,
        { st with chk := st.chk + 1, tmr := st.tmr + 1 }) := by
  simp only [writeLoop, h1, h2, h3, h4]
  rfl

theorem writeLoop_succ_step (env : Env) (n i v : Nat) (st : St)
    (h1 : checkTerm env st.chk = false) (h2 : env.writeReady i = true)
    (h3 : st.stats.write_bytes < bytes_to_write)
    (h4 : env.writeOk i = true) :
    writeLoop env (n + 1) i v st
      = writeLoop env n (i + 1) (lfsr_fill v wordsPerChunk).1
          { st with
            chk := st.chk + 1, tmr := st.tmr + 2,
            stats := writeStep
              (wrapSub (rdTimer env (st.tmr + 1)) (rdTimer env st.tmr))
              st.stats } := by
  simp only [writeLoop, h1, h2, h3, h4]
  rfl

theorem readLoop_exit_term (env : Env) (n i v : Nat) (st : St)
    (h1 : checkTerm env st.chk = true) :
    readLoop env (n + 1) i v st = (none, { st with chk := st.chk + 1 }) := by
  simp only [readLoop, h1]
  rfl

theorem readLoop_exit_ready (env : Env) (n i v : Nat) (st : St)
    (h1 : checkTerm env st.chk = false) (h2 : env.readReady i = false) :
    readLoop env (n + 1) i v st = (none, { st with chk := st.chk + 1 }) := by
  simp only [readLoop, h1, h2]
  rfl

theorem readLoop_exit_full (env : Env) (n i v : Nat) (st : St)
    (h1 : checkTerm env st.chk = false) (h2 : env.readReady i = true)
    (h3 : ¬st.stats.read_bytes < bytes_to_read) :
    readLoop env (n + 1) i v st = (none, { st with chk := st.chk + 1 }) := by
  simp only [readLoop, h1, h2, h3]
  rfl

theorem readLoop_exit_rfail (env : Env) (n i v : Nat) (st : St)
    (h1 : checkTerm env st.chk = false) (h2 : env.readReady i = true)
    (h3 : st.stats.read_bytes < bytes_to_read)
    (h4 : env.readOk i = false) :
    readLoop env (n + 1) i v st
      = (none, { st with chk := st.chk + 1, tmr := st.tmr + 1 }) := by
  simp only [readLoop, h1, h2, h3, h4]
  rfl

theorem readLoop_exit_compare (env : Env) (n i v : Nat) (st : St)
    (h1 : checkTerm env st.chk = false) (h2 : env.readReady i = true)
    (h3 : st.stats.read_bytes < bytes_to_read)
    (h4 : env.readOk i = true)
    (h5 : (lfsr_compare v (readChunkData env i)).2 = false) :
    readLoop env (n + 1) i v st
      = (some Result.FailCompare,
        { st with
          chk := st.chk + 1, tmr := st.tmr + 2,
          stats := readStep
            (wrapSub (rdTimer env (st.tmr + 1)) (rdTimer env st.tmr))
            st.stats }) := by
  simp only [readLoop, h1, h2, h3, h4, h5]
  rfl

theorem readLoop_succ_step (env : Env) (n i v : Nat) (st : St)
    (h1 : checkTerm env st.chk = false) (h2 : env.readReady i = true)
    (h3 : st.stats.read_bytes < bytes_to_read)
    (h4 : env.readOk i = true)
    (h5 : (lfsr_compare v (readChunkData env i)).2 = true) :
    readLoop env (n + 1) i v st
      = readLoop env n (i + 1) (lfsr_compare v (readChunkData env i)).1
          { st with
            chk := st.chk + 1, tmr := st.tmr + 2,
            stats := readStep
              (wrapSub (rdTimer env (st.tmr + 1)) (rdTimer env st.tmr))
              st.stats } := by
  simp only [readLoop, h1, h2, h3, h4, h5]
  rfl


/-- Variant of `readLoop_succ_step` taking the verifier's result as an
equation, convenient when the advanced LFSR state is known in closed form. -/
theorem readLoop_succ_step2 (env : Env) (n i v v2 : Nat) (st : St)
    (h1 : checkTerm env st.chk = false) (h2 : env.readReady i = true)
    (h3 : st.stats.read_bytes < bytes_to_read)
    (h4 : env.readOk i = true)
    (h5 : lfsr_compare v (readChunkData env i) = (v2, true)) :
    readLoop env (n + 1) i v st
      = readLoop env n (i + 1) v2
          { st with
            chk := st.chk + 1, tmr := st.tmr + 2,
            stats := readStep
              (wrapSub (rdTimer env (st.tmr + 1)) (rdTimer env st.tmr))
              st.stats } := by
  rw [readLoop_succ_step env n i v st h1 h2 h3 h4 (by rw [h5])]
  rw [h5]

/-! ## Scenario lemmas for the write loop -/

theorem writeLoop_allOk (env : Env) (hterm : env.termAfter = none)
    (hready : ∀ i, env.writeReady i = true)
    (hok : ∀ i, env.writeOk i = true) :
    ∀ fuel i v st, 1024 - i < fuel → i ≤ 1024 →
      st.stats.write_bytes = i * write_size → st.stats.write_count = i →
      (writeLoop env fuel i v st).2.stats.write_bytes = bytes_to_write ∧
      (writeLoop env fuel i v st).2.stats.write_count = 1024 := by
  intro fuel
  induction fuel with
  | zero => intro i v st hf _ _ _; omega
  | succ n ih =>
    intro i v st hf hi hb hc
    have ht : checkTerm env st.chk = false := by simp [checkTerm, hterm]
    by_cases hlt : i < 1024
    · have hb' : st.stats.write_bytes < bytes_to_write := by
        rw [hb]; simp only [write_size, bytes_to_write]; omega
      rw [writeLoop_succ_step env n i v st ht (hready i) hb' (hok i)]
      apply ih
      · omega
      · omega
      · simp [writeStep, hb, Nat.succ_mul]
      · simp [writeStep, hc]
    · have hi' : i = 1024 := by omega
      have hb' : ¬st.stats.write_bytes < bytes_to_write := by
        rw [hb, hi']; simp [write_size, bytes_to_write]
      rw [writeLoop_exit_full env n i v st ht (hready i) hb']
      subst hi'
      constructor
      · simpa [write_size, bytes_to_write] using hb
      · simpa using hc

theorem writeLoop_cancelAt (env : Env) (k : Nat)
    (hterm : env.termAfter = some k)
    (hready : ∀ i, env.writeReady i = true)
    (hok : ∀ i, env.writeOk i = true) (hk : k ≤ 1023) :
    ∀ fuel i v st, k - i < fuel → i ≤ k → st.chk = i →
      st.stats.write_bytes = i * write_size → st.stats.write_count = i →
      (writeLoop env fuel i v st).2.stats.write_bytes = k * write_size ∧
      (writeLoop env fuel i v st).2.stats.write_count = k := by
  intro fuel
  induction fuel with
  | zero => intro i v st hf _ _ _ _; omega
  | succ n ih =>
    intro i v st hf hi hchk hb hc
    by_cases hlt : i < k
    · have ht : checkTerm env st.chk = false := by
        simp only [checkTerm, hterm, decide_eq_false_iff_not]
        omega
      have hb' : st.stats.write_bytes < bytes_to_write := by
        rw [hb]; simp only [write_size, bytes_to_write]; omega
      rw [writeLoop_succ_step env n i v st ht (hready i) hb' (hok i)]
      apply ih
      · omega
      · omega
      · simp [hchk]
      · simp [writeStep, hb, Nat.succ_mul]
      · simp [writeStep, hc]
    · have hik : i = k := by omega
      have ht : checkTerm env st.chk = true := by
        simp only [checkTerm, hterm, decide_eq_true_eq]
        omega
      rw [writeLoop_exit_term env n i v st ht]
      subst hik
      exact ⟨by simpa using hb, by simpa using hc⟩

theorem writeLoop_failAt (env : Env) (K : Nat)
    (hterm : env.termAfter = none)
    (hready : ∀ i, env.writeReady i = true)
    (hoklt : ∀ i, i < K → env.writeOk i = true)
    (hokK : env.writeOk K = false) (hK : K ≤ 1023) :
    ∀ fuel i v st, K - i < fuel → i ≤ K →
      st.stats.write_bytes = i * write_size → st.stats.write_count = i →
      (writeLoop env fuel i v st).2.stats.write_bytes = K * write_size ∧
      (writeLoop env fuel i v st).2.stats.write_count = K := by
  intro fuel
  induction fuel with
  | zero => intro i v st hf _ _ _; omega
  | succ n ih =>
    intro i v st hf hi hb hc
    have ht : checkTerm env st.chk = false := by simp [checkTerm, hterm]
    have hb' : st.stats.write_bytes < bytes_to_write := by
      rw [hb]; simp only [write_size, bytes_to_write]; omega
    by_cases hlt : i < K
    · rw [writeLoop_succ_step env n i v st ht (hready i) hb' (hoklt i hlt)]
      apply ih
      · omega
      · omega
      · simp [writeStep, hb, Nat.succ_mul]
      · simp [writeStep, hc]
    · have hik : i = K := by omega
      subst hik
      rw [writeLoop_exit_wfail env n i v st ht (hready i) hb' hokK]
      exact ⟨by simpa using hb, by simpa using hc⟩

/-! ## Scenario lemmas for the read loop -/

theorem readLoop_allOk (env : Env) (hterm : env.termAfter = none)
    (hready : ∀ i, env.readReady i = true)
    (hok : ∀ i, env.readOk i = true)
    (hdata : ∀ i, i < 1024 → readChunkData env i = patternChunk i) :
    ∀ fuel i st, 1024 - i < fuel → i ≤ 1024 →
      st.stats.read_bytes = i * write_size → st.stats.read_count = i →
      (readLoop env fuel i (patternChunkState i) st).1 = none ∧
      (readLoop env fuel i (patternChunkState i) st).2.stats.read_bytes
        = bytes_to_read ∧
      (readLoop env fuel i (patternChunkState i) st).2.stats.read_count
        = 1024 := by
  intro fuel
  induction fuel with
  | zero => intro i st hf _ _ _; omega
  | succ n ih =>
    intro i st hf hi hb hc
    have ht : checkTerm env st.chk = false := by simp [checkTerm, hterm]
    by_cases hlt : i < 1024
    · have hb' : st.stats.read_bytes < bytes_to_read := by
        rw [hb]; simp only [write_size, bytes_to_read, bytes_to_write]; omega
      have hcmp : lfsr_compare (patternChunkState i) (readChunkData env i)
          = (patternChunkState (i + 1), true) := by
        rw [hdata i hlt, patternChunk, lfsr_roundtrip, patternChunkState]
      rw [readLoop_succ_step2 env n i (patternChunkState i)
        (patternChunkState (i + 1)) st ht (hready i) hb' (hok i) hcmp]
      apply ih
      · omega
      · omega
      · simp [readStep, hb, Nat.succ_mul]
      · simp [readStep, hc]
    · have hi' : i = 1024 := by omega
      have hb' : ¬st.stats.read_bytes < bytes_to_read := by
        rw [hb, hi']; simp [write_size, bytes_to_read, bytes_to_write]
      rw [readLoop_exit_full env n i (patternChunkState i) st ht (hready i) hb']
      subst hi'
      refine ⟨rfl, ?_, by simpa using hc⟩
      simpa [write_size, bytes_to_read, bytes_to_write] using hb

theorem readLoop_failAt (env : Env) (K : Nat)
    (hterm : env.termAfter = none)
    (hready : ∀ i, env.readReady i = true)
    (hoklt : ∀ i, i < K → env.readOk i = true)
    (hokK : env.readOk K = false)
    (hdata : ∀ i, i < K → readChunkData env i = patternChunk i)
    (hK : K ≤ 1023) :
    ∀ fuel i st, K - i < fuel → i ≤ K →
      st.stats.read_bytes = i * write_size → st.stats.read_count = i →
      (readLoop env fuel i (patternChunkState i) st).1 = none ∧
      (readLoop env fuel i (patternChunkState i) st).2.stats.read_bytes
        = K * write_size ∧
      (readLoop env fuel i (patternChunkState i) st).2.stats.read_count
        = K := by
  intro fuel
  induction fuel with
  | zero => intro i st hf _ _ _; omega
  | succ n ih =>
    intro i st hf hi hb hc
    have ht : checkTerm env st.chk = false := by simp [checkTerm, hterm]
    have hb' : st.stats.read_bytes < bytes_to_read := by
      rw [hb]; simp only [write_size, bytes_to_read, bytes_to_write]; omega
    by_cases hlt : i < K
    · have hcmp : lfsr_compare (patternChunkState i) (readChunkData env i)
          = (patternChunkState (i + 1), true) := by
        rw [hdata i hlt, patternChunk, lfsr_roundtrip, patternChunkState]
      rw [readLoop_succ_step2 env n i (patternChunkState i)
        (patternChunkState (i + 1)) st ht (hready i) hb' (hoklt i hlt) hcmp]
      apply ih
      · omega
      · omega
      · simp [readStep, hb, Nat.succ_mul]
      · simp [readStep, hc]
    · have hik : i = K := by omega
      subst hik
      rw [readLoop_exit_rfail env n i (patternChunkState i) st ht (hready i)
        hb' hokK]
      exact ⟨rfl, by simpa using hb, by simpa using hc⟩

/-! ## Phase-level lemmas -/

theorem write_allocFail (env : Env) (st : St)
    (h : env.writeAllocOk = false) :
    write env st = (Result.FailHeap, st) := by
  simp [write, h]

theorem write_openFail (env : Env) (st : St)
    (h1 : env.writeAllocOk = true) (h2 : env.openWriteOk = false) :
    write env st = (Result.FailFileOpenWrite, st) := by
  simp [write, h1, h2]

theorem read_allocFail (env : Env) (st : St)
    (h : env.readAllocOk = false) :
    read env st = (Result.FailHeap, { st with readEntered := true }) := by
  simp [read, h]

theorem read_openFail (env : Env) (st : St)
    (h1 : env.readAllocOk = true) (h2 : env.openReadOk = false) :
    read env st = (Result.FailFileOpenRead, { st with readEntered := true }) := by
  simp [read, h1, h2]

/-- The write phase always returns `OK` once allocation and open succeed. -/
theorem write_ok_of_open (env : Env) (st : St)
    (h1 : env.writeAllocOk = true) (h2 : env.openWriteOk = true) :
    (write env st).1 = Result.OK := by
  simp [write, h1, h2]

theorem write_allOk (env : Env)
    (h1 : env.writeAllocOk = true) (h2 : env.openWriteOk = true)
    (hterm : env.termAfter = none)
    (hready : ∀ i, env.writeReady i = true)
    (hok : ∀ i, env.writeOk i = true)
    (st : St) (hb : st.stats.write_bytes = 0) (hc : st.stats.write_count = 0) :
    (write env st).1 = Result.OK ∧
    (write env st).2.stats.write_bytes = bytes_to_write ∧
    (write env st).2.stats.write_count = 1024 := by
  have h := writeLoop_allOk env hterm hready hok loopFuel 0 1
    { st with fileExists := true, openHandles := st.openHandles + 1,
              tmr := st.tmr + 1 }
    (by simp only [loopFuel]; omega) (by omega) (by simpa using hb) (by simpa using hc)
  simp only [write, h1, h2]
  simp only [Bool.true_eq_false, if_false]
  exact ⟨by trivial, by simpa using h.1, by simpa using h.2⟩

theorem write_cancelAt (env : Env) (k : Nat)
    (h1 : env.writeAllocOk = true) (h2 : env.openWriteOk = true)
    (hterm : env.termAfter = some k)
    (hready : ∀ i, env.writeReady i = true)
    (hok : ∀ i, env.writeOk i = true) (hk : k ≤ 1023)
    (st : St) (hchk : st.chk = 0)
    (hb : st.stats.write_bytes = 0) (hc : st.stats.write_count = 0) :
    (write env st).1 = Result.OK ∧
    (write env st).2.stats.write_bytes = k * write_size ∧
    (write env st).2.stats.write_count = k := by
  have h := writeLoop_cancelAt env k hterm hready hok hk loopFuel 0 1
    { st with fileExists := true, openHandles := st.openHandles + 1,
              tmr := st.tmr + 1 }
    (by simp only [loopFuel]; omega) (by omega) (by simpa using hchk)
    (by simpa using hb) (by simpa using hc)
  simp only [write, h1, h2]
  simp only [Bool.true_eq_false, if_false]
  exact ⟨by trivial, by simpa using h.1, by simpa using h.2⟩

theorem write_failAt (env : Env) (K : Nat)
    (h1 : env.writeAllocOk = true) (h2 : env.openWriteOk = true)
    (hterm : env.termAfter = none)
    (hready : ∀ i, env.writeReady i = true)
    (hoklt : ∀ i, i < K → env.writeOk i = true)
    (hokK : env.writeOk K = false) (hK : K ≤ 1023)
    (st : St) (hb : st.stats.write_bytes = 0) (hc : st.stats.write_count = 0) :
    (write env st).1 = Result.OK ∧
    (write env st).2.stats.write_bytes = K * write_size ∧
    (write env st).2.stats.write_count = K := by
  have h := writeLoop_failAt env K hterm hready hoklt hokK hK loopFuel 0 1
    { st with fileExists := true, openHandles := st.openHandles + 1,
              tmr := st.tmr + 1 }
    (by simp only [loopFuel]; omega) (by omega) (by simpa using hb) (by simpa using hc)
  simp only [write, h1, h2]
  simp only [Bool.true_eq_false, if_false]
  exact ⟨by trivial, by simpa using h.1, by simpa using h.2⟩

theorem read_allOk (env : Env)
    (h1 : env.readAllocOk = true) (h2 : env.openReadOk = true)
    (hterm : env.termAfter = none)
    (hready : ∀ i, env.readReady i = true)
    (hok : ∀ i, env.readOk i = true)
    (hdata : ∀ i, i < 1024 → readChunkData env i = patternChunk i)
    (st : St) (hb : st.stats.read_bytes = 0) (hc : st.stats.read_count = 0) :
    (read env st).1 = Result.OK ∧
    (read env st).2.stats.read_bytes = bytes_to_read ∧
    (read env st).2.stats.read_count = 1024 := by
  have h := readLoop_allOk env hterm hready hok hdata loopFuel 0
    { st with readEntered := true, openHandles := st.openHandles + 1,
              tmr := st.tmr + 1 }
    (by simp only [loopFuel]; omega) (by omega) (by simpa using hb) (by simpa using hc)
  simp only [read, h1, h2]
  simp only [Bool.true_eq_false, if_false]
  rw [show patternChunkState 0 = 1 from rfl] at h
  rw [h.1]
  exact ⟨by trivial, by simpa using h.2.1, by simpa using h.2.2⟩

theorem read_failAt (env : Env) (K : Nat)
    (h1 : env.readAllocOk = true) (h2 : env.openReadOk = true)
    (hterm : env.termAfter = none)
    (hready : ∀ i, env.readReady i = true)
    (hoklt : ∀ i, i < K → env.readOk i = true)
    (hokK : env.readOk K = false)
    (hdata : ∀ i, i < K → readChunkData env i = patternChunk i)
    (hK : K ≤ 1023)
    (st : St) (hb : st.stats.read_bytes = 0) (hc : st.stats.read_count = 0) :
    (read env st).1 = Result.OK ∧
    (read env st).2.stats.read_bytes = K * write_size ∧
    (read env st).2.stats.read_count = K := by
  have h := readLoop_failAt env K hterm hready hoklt hokK hdata hK loopFuel 0
    { st with readEntered := true, openHandles := st.openHandles + 1,
              tmr := st.tmr + 1 }
    (by simp only [loopFuel]; omega) (by omega) (by simpa using hb) (by simpa using hc)
  simp only [read, h1, h2]
  simp only [Bool.true_eq_false, if_false]
  rw [show patternChunkState 0 = 1 from rfl] at h
  rw [h.1]
  exact ⟨by trivial, by simpa using h.2.1, by simpa using h.2.2⟩

/-! ## Timer-monotonicity machinery for the duration statistics -/

theorem rdTimer_lt_hal (env : Env) (n : Nat) : rdTimer env n < HAL_MOD :=
  Nat.mod_lt _ (by norm_num [HAL_MOD])

theorem timer_mono {env : Env} {N : Nat} (h : TimerOk env N) :
    ∀ a b, a ≤ b → b < N → rdTimer env a ≤ rdTimer env b := by
  intro a b
  induction b with
  | zero =>
    intro hab _
    have ha : a = 0 := by omega
    subst ha
    exact le_refl _
  | succ m ih =>
    intro hab hbN
    rcases Nat.lt_or_ge a (m + 1) with hlt | hge
    · exact le_trans (ih (by omega) (by omega)) (le_of_lt (h m (by omega)))
    · have : a = m + 1 := by omega
      subst this
      exact le_refl _

theorem wrapSub_of_le (a b : Nat) (hab : a ≤ b) (hb : b < HAL_MOD) :
    wrapSub b a = b - a := by
  have ha : a % HAL_MOD = a := Nat.mod_eq_of_lt (lt_of_le_of_lt hab hb)
  rw [wrapSub, ha]
  have h1 : b + HAL_MOD - a = (b - a) + HAL_MOD := by omega
  rw [h1, Nat.add_mod_right]
  exact Nat.mod_eq_of_lt (by omega)

/-- Arithmetic core of the min/average bound: one completed chunk of duration
`d = r1 - r0` preserves `count * min + (start reading) ≤ (last reading)`. -/
theorem chunk_min_bound (c m d ra r0 r1 rp : Nat)
    (hd : d = r1 - r0) (hdpos : r0 < r1)
    (hra : ra ≤ r0) (hrp : rp ≤ r0)
    (hc0 : c = 0 → m = 0)
    (hcpos : 0 < c → 0 < m ∧ c * m + ra ≤ rp) :
    0 < updateMin m d ∧ (c + 1) * updateMin m d + ra ≤ r1 := by
  rcases Nat.eq_zero_or_pos c with hc | hc
  · have hm : m = 0 := hc0 hc
    subst hm hc
    have hu : updateMin 0 d = d := by simp [updateMin]
    rw [hu]
    omega
  · obtain ⟨hm, hb⟩ := hcpos hc
    simp only [updateMin]
    by_cases hif : m = 0 ∨ d < m
    · rw [if_pos hif]
      have hdm : d < m := by omega
      have h1 : c * d ≤ c * m := Nat.mul_le_mul_left c (le_of_lt hdm)
      have h2 : (c + 1) * d = c * d + d := by ring
      omega
    · rw [if_neg hif]
      push_neg at hif
      have h2 : (c + 1) * m = c * m + m := by ring
      omega

/-! ## Simple bounds on loop resource consumption -/

theorem writeLoop_tmr_le (env : Env) :
    ∀ fuel i v st, (writeLoop env fuel i v st).2.tmr ≤ st.tmr + 2 * fuel := by
  intro fuel
  induction fuel with
  | zero => intro i v st; simp [writeLoop]
  | succ n ih =>
    intro i v st
    simp only [writeLoop]
    split
    · simp
    · split
      · simp
      · split
        · split
          · simp; omega
          · calc (writeLoop env n (i + 1) _ _).2.tmr
                ≤ _ := ih (i + 1) _ _
              _ ≤ st.tmr + 2 * (n + 1) := by simp; omega
        · simp

theorem readLoop_tmr_le (env : Env) :
    ∀ fuel i v st, (readLoop env fuel i v st).2.tmr ≤ st.tmr + 2 * fuel := by
  intro fuel
  induction fuel with
  | zero => intro i v st; simp [readLoop]
  | succ n ih =>
    intro i v st
    simp only [readLoop]
    split
    · simp
    · split
      · simp
      · split
        · split
          · simp; omega
          · split
            · simp; omega
            · calc (readLoop env n (i + 1) _ _).2.tmr
                  ≤ _ := ih (i + 1) _ _
                _ ≤ st.tmr + 2 * (n + 1) := by simp; omega
        · simp

/-- The read loop exits either normally or through the verification-mismatch
return; no other `Result` can come out of it. -/
theorem readLoop_result (env : Env) :
    ∀ fuel i v st, (readLoop env fuel i v st).1 = none ∨
      (readLoop env fuel i v st).1 = some Result.FailCompare := by
  intro fuel
  induction fuel with
  | zero => intro i v st; left; rfl
  | succ n ih =>
    intro i v st
    simp only [readLoop]
    split
    · left; rfl
    · split
      · left; rfl
      · split
        · split
          · left; rfl
          · split
            · right; rfl
            · exact ih (i + 1) _ _
        · left; rfl

/-! ## Min/average invariant through the loops -/

theorem writeLoop_minAvg (env : Env) (N : Nat) (hT : TimerOk env N) (a : Nat) :
    ∀ fuel i v st,
      a < st.tmr → st.tmr + 2 * fuel ≤ N →
      (st.stats.write_count = 0 → st.stats.write_duration_min = 0) →
      (0 < st.stats.write_count →
        0 < st.stats.write_duration_min ∧
        st.stats.write_count * st.stats.write_duration_min + rdTimer env a
          ≤ rdTimer env (st.tmr - 1)) →
      a < (writeLoop env fuel i v st).2.tmr ∧
      st.tmr ≤ (writeLoop env fuel i v st).2.tmr ∧
      (0 < (writeLoop env fuel i v st).2.stats.write_count →
        0 < (writeLoop env fuel i v st).2.stats.write_duration_min ∧
        (writeLoop env fuel i v st).2.stats.write_count *
            (writeLoop env fuel i v st).2.stats.write_duration_min
          + rdTimer env a
          ≤ rdTimer env ((writeLoop env fuel i v st).2.tmr - 1)) := by
  intro fuel
  induction fuel with
  | zero =>
    intro i v st h1 _ _ h4
    simp only [writeLoop]
    exact ⟨h1, le_refl _, h4⟩
  | succ n ih =>
    intro i v st h1 h2 h3 h4
    by_cases ht : checkTerm env st.chk = true
    · rw [writeLoop_exit_term env n i v st ht]
      exact ⟨h1, le_refl _, h4⟩
    · have ht' : checkTerm env st.chk = false := by
        revert ht; cases checkTerm env st.chk <;> simp
      by_cases hrdy : env.writeReady i = true
      · by_cases hblt : st.stats.write_bytes < bytes_to_write
        · by_cases hwk : env.writeOk i = true
          · -- one more chunk completes
            rw [writeLoop_succ_step env n i v st ht' hrdy hblt hwk]
            have hlt1 : st.tmr + 1 < N := by omega
            have hstep : rdTimer env st.tmr < rdTimer env (st.tmr + 1) :=
              hT st.tmr hlt1
            have hra : rdTimer env a ≤ rdTimer env st.tmr :=
              timer_mono hT a st.tmr (by omega) (by omega)
            have hrp : rdTimer env (st.tmr - 1) ≤ rdTimer env st.tmr :=
              timer_mono hT (st.tmr - 1) st.tmr (by omega) (by omega)
            have hds : wrapSub (rdTimer env (st.tmr + 1)) (rdTimer env st.tmr)
                = rdTimer env (st.tmr + 1) - rdTimer env st.tmr :=
              wrapSub_of_le _ _ (le_of_lt hstep) (rdTimer_lt_hal env _)
            have hkey := chunk_min_bound st.stats.write_count
              st.stats.write_duration_min
              (wrapSub (rdTimer env (st.tmr + 1)) (rdTimer env st.tmr))
              (rdTimer env a) (rdTimer env st.tmr) (rdTimer env (st.tmr + 1))
              (rdTimer env (st.tmr - 1)) hds hstep hra hrp h3 h4
            obtain ⟨g1, g2, g3⟩ := ih (i + 1) (lfsr_fill v wordsPerChunk).1
              { st with
                chk := st.chk + 1, tmr := st.tmr + 2,
                stats := writeStep
                  (wrapSub (rdTimer env (st.tmr + 1)) (rdTimer env st.tmr))
                  st.stats }
              (show a < st.tmr + 2 by omega)
              (show st.tmr + 2 + 2 * n ≤ N by omega)
              (by
                intro hcz
                exact absurd hcz (by simp [writeStep]))
              (by
                intro _
                show 0 < updateMin st.stats.write_duration_min _ ∧
                  (st.stats.write_count + 1) *
                      updateMin st.stats.write_duration_min _ + rdTimer env a
                    ≤ rdTimer env (st.tmr + 2 - 1)
                have e : st.tmr + 2 - 1 = st.tmr + 1 := by omega
                rw [e]
                exact hkey)
            refine ⟨g1, ?_, g3⟩
            exact le_trans (show st.tmr ≤ st.tmr + 2 by omega) g2
          · have hw : env.writeOk i = false := by
              revert hwk; cases env.writeOk i <;> simp
            rw [writeLoop_exit_wfail env n i v st ht' hrdy hblt hw]
            refine ⟨show a < st.tmr + 1 by omega,
              show st.tmr ≤ st.tmr + 1 by omega, ?_⟩
            intro hpos
            obtain ⟨hm, hb⟩ := h4 hpos
            refine ⟨hm, ?_⟩
            have hmono : rdTimer env (st.tmr - 1) ≤ rdTimer env st.tmr :=
              timer_mono hT (st.tmr - 1) st.tmr (by omega) (by omega)
            have e : st.tmr + 1 - 1 = st.tmr := by omega
            show _ ≤ rdTimer env (st.tmr + 1 - 1)
            rw [e]
            exact le_trans hb hmono
        · rw [writeLoop_exit_full env n i v st ht' hrdy hblt]
          exact ⟨h1, le_refl _, h4⟩
      · have hr : env.writeReady i = false := by
          revert hrdy; cases env.writeReady i <;> simp
        rw [writeLoop_exit_ready env n i v st ht' hr]
        exact ⟨h1, le_refl _, h4⟩

theorem readLoop_minAvg (env : Env) (N : Nat) (hT : TimerOk env N) (a : Nat) :
    ∀ fuel i v st,
      a < st.tmr → st.tmr + 2 * fuel ≤ N →
      (st.stats.read_count = 0 → st.stats.read_duration_min = 0) →
      (0 < st.stats.read_count →
        0 < st.stats.read_duration_min ∧
        st.stats.read_count * st.stats.read_duration_min + rdTimer env a
          ≤ rdTimer env (st.tmr - 1)) →
      a < (readLoop env fuel i v st).2.tmr ∧
      st.tmr ≤ (readLoop env fuel i v st).2.tmr ∧
      (0 < (readLoop env fuel i v st).2.stats.read_count →
        0 < (readLoop env fuel i v st).2.stats.read_duration_min ∧
        (readLoop env fuel i v st).2.stats.read_count *
            (readLoop env fuel i v st).2.stats.read_duration_min
          + rdTimer env a
          ≤ rdTimer env ((readLoop env fuel i v st).2.tmr - 1)) := by
  intro fuel
  induction fuel with
  | zero =>
    intro i v st h1 _ _ h4
    simp only [readLoop]
    exact ⟨h1, le_refl _, h4⟩
  | succ n ih =>
    intro i v st h1 h2 h3 h4
    by_cases ht : checkTerm env st.chk = true
    · rw [readLoop_exit_term env n i v st ht]
      exact ⟨h1, le_refl _, h4⟩
    · have ht' : checkTerm env st.chk = false := by
        revert ht; cases checkTerm env st.chk <;> simp
      by_cases hrdy : env.readReady i = true
      · by_cases hblt : st.stats.read_bytes < bytes_to_read
        · by_cases hwk : env.readOk i = true
          · have hlt1 : st.tmr + 1 < N := by omega
            have hstep : rdTimer env st.tmr < rdTimer env (st.tmr + 1) :=
              hT st.tmr hlt1
            have hra : rdTimer env a ≤ rdTimer env st.tmr :=
              timer_mono hT a st.tmr (by omega) (by omega)
            have hrp : rdTimer env (st.tmr - 1) ≤ rdTimer env st.tmr :=
              timer_mono hT (st.tmr - 1) st.tmr (by omega) (by omega)
            have hds : wrapSub (rdTimer env (st.tmr + 1)) (rdTimer env st.tmr)
                = rdTimer env (st.tmr + 1) - rdTimer env st.tmr :=
              wrapSub_of_le _ _ (le_of_lt hstep) (rdTimer_lt_hal env _)
            have hkey := chunk_min_bound st.stats.read_count
              st.stats.read_duration_min
              (wrapSub (rdTimer env (st.tmr + 1)) (rdTimer env st.tmr))
              (rdTimer env a) (rdTimer env st.tmr) (rdTimer env (st.tmr + 1))
              (rdTimer env (st.tmr - 1)) hds hstep hra hrp h3 h4
            have e : st.tmr + 2 - 1 = st.tmr + 1 := by omega
            by_cases hcm : (lfsr_compare v (readChunkData env i)).2 = true
            · rw [readLoop_succ_step env n i v st ht' hrdy hblt hwk hcm]
              obtain ⟨g1, g2, g3⟩ := ih (i + 1)
                (lfsr_compare v (readChunkData env i)).1
                { st with
                  chk := st.chk + 1, tmr := st.tmr + 2,
                  stats := readStep
                    (wrapSub (rdTimer env (st.tmr + 1)) (rdTimer env st.tmr))
                    st.stats }
                (show a < st.tmr + 2 by omega)
                (show st.tmr + 2 + 2 * n ≤ N by omega)
                (by
                  intro hcz
                  exact absurd hcz (by simp [readStep]))
                (by
                  intro _
                  show 0 < updateMin st.stats.read_duration_min _ ∧
                    (st.stats.read_count + 1) *
                        updateMin st.stats.read_duration_min _ + rdTimer env a
                      ≤ rdTimer env (st.tmr + 2 - 1)
                  rw [e]
                  exact hkey)
              refine ⟨g1, ?_, g3⟩
              exact le_trans (show st.tmr ≤ st.tmr + 2 by omega) g2
            · have hcm' : (lfsr_compare v (readChunkData env i)).2 = false := by
                revert hcm
                cases (lfsr_compare v (readChunkData env i)).2 <;> simp
              rw [readLoop_exit_compare env n i v st ht' hrdy hblt hwk hcm']
              refine ⟨show a < st.tmr + 2 by omega,
                show st.tmr ≤ st.tmr + 2 by omega, ?_⟩
              intro _
              show 0 < updateMin st.stats.read_duration_min _ ∧
                (st.stats.read_count + 1) *
                    updateMin st.stats.read_duration_min _ + rdTimer env a
                  ≤ rdTimer env (st.tmr + 2 - 1)
              rw [e]
              exact hkey
          · have hw : env.readOk i = false := by
              revert hwk; cases env.readOk i <;> simp
            rw [readLoop_exit_rfail env n i v st ht' hrdy hblt hw]
            refine ⟨show a < st.tmr + 1 by omega,
              show st.tmr ≤ st.tmr + 1 by omega, ?_⟩
            intro hpos
            obtain ⟨hm, hb⟩ := h4 hpos
            refine ⟨hm, ?_⟩
            have hmono : rdTimer env (st.tmr - 1) ≤ rdTimer env st.tmr :=
              timer_mono hT (st.tmr - 1) st.tmr (by omega) (by omega)
            have e1 : st.tmr + 1 - 1 = st.tmr := by omega
            show _ ≤ rdTimer env (st.tmr + 1 - 1)
            rw [e1]
            exact le_trans hb hmono
        · rw [readLoop_exit_full env n i v st ht' hrdy hblt]
          exact ⟨h1, le_refl _, h4⟩
      · have hr : env.readReady i = false := by
          revert hrdy; cases env.readReady i <;> simp
        rw [readLoop_exit_ready env n i v st ht' hr]
        exact ⟨h1, le_refl _, h4⟩

/-! ## Closed forms for the successful-open paths of the phases -/

theorem write_eq_main (env : Env) (st : St) (h1 : env.writeAllocOk = true)
    (h2 : env.openWriteOk = true) :
    write env st = (Result.OK, wFinal env st) := by
  simp only [write, h1, h2, Bool.true_eq_false, if_false, wFinal, wEntry]

theorem read_eq_main (env : Env) (st : St) (h1 : env.readAllocOk = true)
    (h2 : env.openReadOk = true)
    (hres : (readLoop env loopFuel 0 1 (rEntry st)).1 = none) :
    read env st = (Result.OK, rFinal env st) := by
  simp only [rEntry] at hres
  simp only [read, h1, h2, Bool.true_eq_false, if_false, rFinal, rEntry, hres]

theorem read_eq_fc (env : Env) (st : St) (h1 : env.readAllocOk = true)
    (h2 : env.openReadOk = true)
    (hres : (readLoop env loopFuel 0 1 (rEntry st)).1 = some Result.FailCompare) :
    read env st = (Result.FailCompare, rFinalFC env st) := by
  simp only [rEntry] at hres
  simp only [read, h1, h2, Bool.true_eq_false, if_false, rFinalFC, rEntry, hres]

theorem write_minAvg (env : Env) (hT : TimerOk env 8192) (st : St)
    (hbound : st.tmr + 2 * loopFuel + 2 ≤ 8192)
    (hc : st.stats.write_count = 0) (hm : st.stats.write_duration_min = 0) :
    0 < (write env st).2.stats.write_count →
      (write env st).2.stats.write_duration_min ≤
        (write env st).2.stats.write_test_duration /
          (write env st).2.stats.write_count := by
  by_cases h1 : env.writeAllocOk = true
  · by_cases h2 : env.openWriteOk = true
    · rw [write_eq_main env st h1 h2]
      obtain ⟨g1, g2, g3⟩ := writeLoop_minAvg env 8192 hT st.tmr loopFuel 0 1
        (wEntry st)
        (show st.tmr < (wEntry st).tmr by simp [wEntry])
        (show (wEntry st).tmr + 2 * loopFuel ≤ 8192 by
          simp only [wEntry, loopFuel] at hbound ⊢; omega)
        (by intro _; simpa [wEntry] using hm)
        (by
          intro hpos
          simp only [wEntry] at hpos
          simp [hc] at hpos)
      have gt := writeLoop_tmr_le env loopFuel 0 1 (wEntry st)
      have hfin : (writeLoop env loopFuel 0 1 (wEntry st)).2.tmr < 8192 := by
        simp only [wEntry, loopFuel] at gt hbound ⊢
        omega
      intro hpos
      have hpos' : 0 < (writeLoop env loopFuel 0 1 (wEntry st)).2.stats.write_count := by
        simpa [wFinal] using hpos
      obtain ⟨gm, gb⟩ := g3 hpos'
      simp only [wFinal]
      have hmono : rdTimer env st.tmr
          ≤ rdTimer env (writeLoop env loopFuel 0 1 (wEntry st)).2.tmr :=
        timer_mono hT _ _ (le_of_lt g1) hfin
      rw [wrapSub_of_le _ _ hmono (rdTimer_lt_hal env _)]
      have hlast := timer_mono hT
        ((writeLoop env loopFuel 0 1 (wEntry st)).2.tmr - 1)
        ((writeLoop env loopFuel 0 1 (wEntry st)).2.tmr) (by omega) hfin
      rw [Nat.le_div_iff_mul_le hpos', Nat.mul_comm]
      omega
    · have h2' : env.openWriteOk = false := by
        revert h2; cases env.openWriteOk <;> simp
      rw [write_openFail env st h1 h2']
      intro hpos
      simp [hc] at hpos
  · have h1' : env.writeAllocOk = false := by
      revert h1; cases env.writeAllocOk <;> simp
    rw [write_allocFail env st h1']
    intro hpos
    simp [hc] at hpos

theorem read_minAvg (env : Env) (hT : TimerOk env 8192) (st : St)
    (hbound : st.tmr + 2 * loopFuel + 2 ≤ 8192)
    (hc : st.stats.read_count = 0) (hm : st.stats.read_duration_min = 0)
    (hne : (read env st).1 ≠ Result.FailCompare) :
    0 < (read env st).2.stats.read_count →
      (read env st).2.stats.read_duration_min ≤
        (read env st).2.stats.read_test_duration /
          (read env st).2.stats.read_count := by
  by_cases h1 : env.readAllocOk = true
  · by_cases h2 : env.openReadOk = true
    · rcases readLoop_result env loopFuel 0 1 (rEntry st) with hres | hres
      · rw [read_eq_main env st h1 h2 hres]
        obtain ⟨g1, g2, g3⟩ := readLoop_minAvg env 8192 hT st.tmr loopFuel 0 1
          (rEntry st)
          (show st.tmr < (rEntry st).tmr by simp [rEntry])
          (show (rEntry st).tmr + 2 * loopFuel ≤ 8192 by
            simp only [rEntry, loopFuel] at hbound ⊢; omega)
          (by intro _; simpa [rEntry] using hm)
          (by
            intro hpos
            simp only [rEntry] at hpos
            simp [hc] at hpos)
        have gt := readLoop_tmr_le env loopFuel 0 1 (rEntry st)
        have hfin : (readLoop env loopFuel 0 1 (rEntry st)).2.tmr < 8192 := by
          simp only [rEntry, loopFuel] at gt hbound ⊢
          omega
        intro hpos
        have hpos' : 0 < (readLoop env loopFuel 0 1 (rEntry st)).2.stats.read_count := by
          simpa [rFinal] using hpos
        obtain ⟨gm, gb⟩ := g3 hpos'
        simp only [rFinal]
        have hmono : rdTimer env st.tmr
            ≤ rdTimer env (readLoop env loopFuel 0 1 (rEntry st)).2.tmr :=
          timer_mono hT _ _ (le_of_lt g1) hfin
        rw [wrapSub_of_le _ _ hmono (rdTimer_lt_hal env _)]
        have hlast := timer_mono hT
          ((readLoop env loopFuel 0 1 (rEntry st)).2.tmr - 1)
          ((readLoop env loopFuel 0 1 (rEntry st)).2.tmr) (by omega) hfin
        rw [Nat.le_div_iff_mul_le hpos', Nat.mul_comm]
        omega
      · rw [read_eq_fc env st h1 h2 hres] at hne
        simp at hne
    · have h2' : env.openReadOk = false := by
        revert h2; cases env.openReadOk <;> simp
      rw [read_openFail env st h1 h2']
      intro hpos
      simp [hc] at hpos
  · have h1' : env.readAllocOk = false := by
      revert h1; cases env.readAllocOk <;> simp
    rw [read_allocFail env st h1']
    intro hpos
    simp [hc] at hpos

theorem write_tmr_le (env : Env) (st : St) :
    (write env st).2.tmr ≤ st.tmr + 2 * loopFuel + 2 := by
  by_cases h1 : env.writeAllocOk = true
  · by_cases h2 : env.openWriteOk = true
    · rw [write_eq_main env st h1 h2]
      have gt := writeLoop_tmr_le env loopFuel 0 1 (wEntry st)
      simp only [wFinal, wEntry] at gt ⊢
      omega
    · have h2' : env.openWriteOk = false := by
        revert h2; cases env.openWriteOk <;> simp
      rw [write_openFail env st h1 h2']
      show st.tmr ≤ st.tmr + 2 * loopFuel + 2
      omega
  · have h1' : env.writeAllocOk = false := by
      revert h1; cases env.writeAllocOk <;> simp
    rw [write_allocFail env st h1']
    show st.tmr ≤ st.tmr + 2 * loopFuel + 2
    omega

/-- Every branch of `run` ends with either the write phase's stats (and a
zero read count), or the read phase's stats together with knowledge of how
the read result relates to the run result. -/
theorem run_cases5 (env : Env) :
    ((run env).2.stats = (write env initSt).2.stats ∧
      (run env).2.stats.read_count = 0) ∨
    ((run env).2.stats = (read env { (write env initSt).2 with
        chk := (write env initSt).2.chk + 1 }).2.stats ∧
      ((read env { (write env initSt).2 with
          chk := (write env initSt).2.chk + 1 }).1 = Result.OK ∨
        (run env).1 = (read env { (write env initSt).2 with
          chk := (write env initSt).2.chk + 1 }).1)) := by
  have hrc : (write env initSt).2.stats.read_count = 0 :=
    (write_phase_frame env initSt).2.2.2.2.1
  simp only [run]
  split
  · left; exact ⟨rfl, hrc⟩
  · split
    · left; exact ⟨rfl, hrc⟩
    · split
      · left; exact ⟨rfl, hrc⟩
      · split
        · right; exact ⟨rfl, Or.inr rfl⟩
        · next hq =>
          have hq' := not_not.mp hq
          split
          · right; exact ⟨rfl, Or.inl hq'⟩
          · split
            · right; exact ⟨rfl, Or.inl hq'⟩
            · right; exact ⟨rfl, Or.inl hq'⟩

/-! ## The claims -/

/-- Claim C1: Pattern-Oracle round trip — for every nonzero seed `s` and word
count `n`, verifying the buffer generated from the same seed succeeds
(`lfsr_compare` over the output of `lfsr_fill` with identical starting state
reports all `n` words matched, and advances the state identically). -/
theorem claim_C1_oracle_roundtrip (s n : Nat) (_hs : s ≠ 0) :
    lfsr_compare s (lfsr_fill s n).2 = ((lfsr_fill s n).1, true) :=
  lfsr_roundtrip n s

/-- Witness for C1 at seed 1, three words. -/
theorem claim_C1_oracle_roundtrip_witness :
    (1 : Nat) ≠ 0 ∧
    lfsr_compare 1 (lfsr_fill 1 3).2 = ((lfsr_fill 1 3).1, true) :=
  ⟨by decide, claim_C1_oracle_roundtrip 1 3 (by decide)⟩

/-- Claim C2, counterexample: with every storage call succeeding and
cancellation observed at the second termination check (so exactly one chunk —
16384 bytes, fewer than the 16 MiB target — was written and the write loop
exited on the termination check), the run ends in `FailWriteIncomplete`, not
`FailAbort` as the claim asserts; the read phase is indeed never entered. -/
theorem claim_C2_counterexample :
    (run envCancelOne).1 = Result.FailWriteIncomplete ∧
    (run envCancelOne).2.stats.write_count = 1 ∧
    (run envCancelOne).2.stats.write_bytes = write_size ∧
    (run envCancelOne).2.readEntered = false ∧
    Result.FailWriteIncomplete ≠ Result.FailAbort := by
  refine ⟨by decide, by decide, by decide, by decide, by decide⟩

/-- Claim C2 as amended: if cancellation is requested so that it is first
observed at write-loop check `k` with `1 ≤ k ≤ 1023` (after the first chunk
but before the byte target), the run terminates with
`FailWriteIncomplete` — because `run` tests the write-byte shortfall before
it tests the termination flag — the write stats reflect exactly the `k`
chunks completed before the request was observed, and the read phase is
never invoked. -/
theorem claim_C2_amended (env : Env) (k : Nat)
    (h1 : env.writeAllocOk = true) (h2 : env.openWriteOk = true)
    (hterm : env.termAfter = some k)
    (hready : ∀ i, env.writeReady i = true)
    (hok : ∀ i, env.writeOk i = true)
    (hk1 : 1 ≤ k) (hk : k ≤ 1023) :
    (run env).1 = Result.FailWriteIncomplete ∧
    (run env).2.stats.write_count = k ∧
    (run env).2.stats.write_bytes = k * write_size ∧
    (run env).2.readEntered = false := by
  obtain ⟨hwOK, hwb, hwc⟩ :=
    write_cancelAt env k h1 h2 hterm hready hok hk initSt rfl rfl rfl
  have hlt : (write env initSt).2.stats.write_bytes < bytes_to_write := by
    rw [hwb]; simp only [write_size, bytes_to_write]; omega
  have hfr : (write env initSt).2.readEntered = false :=
    (write_phase_frame env initSt).2.2.2.2.2.2
  have c1 : ¬((write env initSt).1 ≠ Result.OK) := by rw [hwOK]; simp
  simp only [run, if_neg c1, if_pos hlt]
  exact ⟨by trivial, hwc, hwb, hfr⟩

/-- Witness for the amended C2 at the concrete cancel-after-one-chunk
environment. -/
theorem claim_C2_amended_witness :
    (run envCancelOne).1 = Result.FailWriteIncomplete ∧
    (run envCancelOne).2.stats.write_count = 1 ∧
    (run envCancelOne).2.stats.write_bytes = 1 * write_size ∧
    (run envCancelOne).2.readEntered = false :=
  claim_C2_amended envCancelOne 1 rfl rfl rfl (fun _ => rfl) (fun _ => rfl)
    (by decide) (by decide)

/-- Claim C3: if the injected write primitive fails at chunk `K` (all earlier
writes succeeded, `K < 1024 = target/chunk_size`), the run terminates with
`FailWriteIncomplete` (`TransferIncomplete{Write}`), the write stats hold the
`K` completed chunks, and the read phase is never invoked. -/
theorem claim_C3_write_fail (env : Env) (K : Nat)
    (h1 : env.writeAllocOk = true) (h2 : env.openWriteOk = true)
    (hterm : env.termAfter = none)
    (hready : ∀ i, env.writeReady i = true)
    (hoklt : ∀ i, i < K → env.writeOk i = true)
    (hokK : env.writeOk K = false) (hK : K ≤ 1023) :
    (run env).1 = Result.FailWriteIncomplete ∧
    (run env).2.stats.write_count = K ∧
    (run env).2.stats.write_bytes = K * write_size ∧
    (run env).2.readEntered = false := by
  obtain ⟨hwOK, hwb, hwc⟩ :=
    write_failAt env K h1 h2 hterm hready hoklt hokK hK initSt rfl rfl
  have hlt : (write env initSt).2.stats.write_bytes < bytes_to_write := by
    rw [hwb]; simp only [write_size, bytes_to_write]; omega
  have hfr : (write env initSt).2.readEntered = false :=
    (write_phase_frame env initSt).2.2.2.2.2.2
  have c1 : ¬((write env initSt).1 ≠ Result.OK) := by rw [hwOK]; simp
  simp only [run, if_neg c1, if_pos hlt]
  exact ⟨by trivial, hwc, hwb, hfr⟩

/-- Witness for C3: the write primitive fails on the very first chunk. -/
theorem claim_C3_write_fail_witness :
    (run envWriteFail).1 = Result.FailWriteIncomplete ∧
    (run envWriteFail).2.stats.write_count = 0 ∧
    (run envWriteFail).2.stats.write_bytes = 0 * write_size ∧
    (run envWriteFail).2.readEntered = false :=
  claim_C3_write_fail envWriteFail 0 rfl rfl rfl (fun _ => rfl)
    (fun i h => absurd h (Nat.not_lt_zero i)) rfl (by decide)

/-- Claim C4, counterexample: a run whose read phase suffers a resource
(allocation) failure terminates with `FailHeap` (`HeapExhausted`), not with
`FailFileOpenRead` (`OpenFailed{Read}`) as the claim asserts for
open-or-resource failures. -/
theorem claim_C4_counterexample :
    (run envReadAllocFail).1 = Result.FailHeap ∧
    Result.FailHeap ≠ Result.FailFileOpenRead := by
  obtain ⟨hwOK, hwb, hwc⟩ := write_allOk envReadAllocFail rfl rfl rfl
    (fun _ => rfl) (fun _ => rfl) initSt rfl rfl
  have c1 : ¬((write envReadAllocFail initSt).1 ≠ Result.OK) := by
    rw [hwOK]; simp
  have c2 : ¬((write envReadAllocFail initSt).2.stats.write_bytes
      < bytes_to_write) := by
    rw [hwb]; simp
  have c3 : checkTerm envReadAllocFail
      ((write envReadAllocFail initSt).2.chk) = false := rfl
  have hq := read_allocFail envReadAllocFail
    { (write envReadAllocFail initSt).2 with
      chk := (write envReadAllocFail initSt).2.chk + 1 } rfl
  have c4 : (read envReadAllocFail
      { (write envReadAllocFail initSt).2 with
        chk := (write envReadAllocFail initSt).2.chk + 1 }).1
      ≠ Result.OK := by
    rw [hq]; decide
  simp only [run, if_neg c1, if_neg c2, c3, Bool.false_eq_true, if_false,
    if_pos c4]
  rw [hq]
  exact ⟨rfl, by decide⟩

/-- Claim C4 as amended: after a fault-free, uncancelled write phase, a read
allocation failure terminates the run with `FailHeap` (`HeapExhausted`), and
a read open failure (allocation having succeeded) terminates it with
`FailFileOpenRead` (`OpenFailed{Read}`); in both cases the read-direction
stats remain at their initial zero values. -/
theorem claim_C4_amended (env : Env)
    (h1 : env.writeAllocOk = true) (h2 : env.openWriteOk = true)
    (hterm : env.termAfter = none)
    (hready : ∀ i, env.writeReady i = true)
    (hok : ∀ i, env.writeOk i = true) :
    (env.readAllocOk = false →
      (run env).1 = Result.FailHeap ∧ readStatsZero (run env).2) ∧
    (env.readAllocOk = true → env.openReadOk = false →
      (run env).1 = Result.FailFileOpenRead ∧ readStatsZero (run env).2) := by
  obtain ⟨hwOK, hwb, hwc⟩ := write_allOk env h1 h2 hterm hready hok initSt
    rfl rfl
  have c1 : ¬((write env initSt).1 ≠ Result.OK) := by rw [hwOK]; simp
  have c2 : ¬((write env initSt).2.stats.write_bytes < bytes_to_write) := by
    rw [hwb]; simp
  have c3 : checkTerm env ((write env initSt).2.chk) = false := by
    simp [checkTerm, hterm]
  have hfw := write_phase_frame env initSt
  constructor
  · intro hra
    have hq := read_allocFail env
      { (write env initSt).2 with
        chk := (write env initSt).2.chk + 1 } hra
    have c4 : (read env
        { (write env initSt).2 with
          chk := (write env initSt).2.chk + 1 }).1 ≠ Result.OK := by
      rw [hq]; simp
    simp only [run, if_neg c1, if_neg c2, c3, Bool.false_eq_true, if_false,
      if_pos c4]
    rw [hq]
    refine ⟨rfl, ?_, ?_, ?_, ?_, ?_⟩
    · exact hfw.1
    · exact hfw.2.1
    · exact hfw.2.2.1
    · exact hfw.2.2.2.1
    · exact hfw.2.2.2.2.1
  · intro hra hro
    have hq := read_openFail env
      { (write env initSt).2 with
        chk := (write env initSt).2.chk + 1 } hra hro
    have c4 : (read env
        { (write env initSt).2 with
          chk := (write env initSt).2.chk + 1 }).1 ≠ Result.OK := by
      rw [hq]; simp
    simp only [run, if_neg c1, if_neg c2, c3, Bool.false_eq_true, if_false,
      if_pos c4]
    rw [hq]
    refine ⟨rfl, ?_, ?_, ?_, ?_, ?_⟩
    · exact hfw.1
    · exact hfw.2.1
    · exact hfw.2.2.1
    · exact hfw.2.2.2.1
    · exact hfw.2.2.2.2.1

/-- Witness for the amended C4 at the concrete read-allocation-failure
environment. -/
theorem claim_C4_amended_witness :
    (run envReadAllocFail).1 = Result.FailHeap ∧
    readStatsZero (run envReadAllocFail).2 :=
  (claim_C4_amended envReadAllocFail rfl rfl rfl (fun _ => rfl)
    (fun _ => rfl)).1 rfl

/-- Claim C6: after each phase's transfer loop — and hence in the final state
of every run — the bytes transferred in a direction equal the completed-chunk
count for that direction times the chunk size of 16384 bytes. -/
theorem claim_C6_bytes_eq_count_mul_chunk (env : Env) (st : St)
    (hwb : st.stats.write_bytes = st.stats.write_count * write_size)
    (hrb : st.stats.read_bytes = st.stats.read_count * write_size) :
    ((write env st).2.stats.write_bytes
      = (write env st).2.stats.write_count * write_size) ∧
    ((read env st).2.stats.read_bytes
      = (read env st).2.stats.read_count * write_size) ∧
    ((run env).2.stats.write_bytes
      = (run env).2.stats.write_count * write_size) ∧
    ((run env).2.stats.read_bytes
      = (run env).2.stats.read_count * write_size) := by
  have hz : initSt.stats.write_bytes = initSt.stats.write_count * write_size := by
    simp [initSt]
  have hzr : (write env initSt).2.stats.read_bytes
      = (write env initSt).2.stats.read_count * write_size := by
    have hfw := write_phase_frame env initSt
    rw [hfw.2.2.2.1, hfw.2.2.2.2.1]
    simp [initSt]
  refine ⟨write_bytes_count env st hwb, read_bytes_count env st hrb, ?_, ?_⟩
  · rcases run_stats_cases env with h | h
    · rw [h]
      exact write_bytes_count env initSt hz
    · rw [h]
      have hf := read_phase_frame env
        { (write env initSt).2 with
          chk := (write env initSt).2.chk + 1 }
      rw [hf.2.2.2.1, hf.2.2.2.2.1]
      exact write_bytes_count env initSt hz
  · rcases run_stats_cases env with h | h
    · rw [h]
      exact hzr
    · rw [h]
      exact read_bytes_count env
        { (write env initSt).2 with
          chk := (write env initSt).2.chk + 1 } hzr

/-- Witness for C6 at the fault-free environment and the initial state. -/
theorem claim_C6_bytes_eq_count_mul_chunk_witness :
    ((write envAllOk initSt).2.stats.write_bytes
      = (write envAllOk initSt).2.stats.write_count * write_size) ∧
    ((read envAllOk initSt).2.stats.read_bytes
      = (read envAllOk initSt).2.stats.read_count * write_size) ∧
    ((run envAllOk).2.stats.write_bytes
      = (run envAllOk).2.stats.write_count * write_size) ∧
    ((run envAllOk).2.stats.read_bytes
      = (run envAllOk).2.stats.read_count * write_size) :=
  claim_C6_bytes_eq_count_mul_chunk envAllOk initSt (by decide) (by decide)

/-- Claim C7, counterexample: in a run whose two write chunks have durations
5 then 0, the first chunk records the nonzero minimum 5
(`updateMin 0 5 = 5`), and the zero duration of the second chunk then
replaces it (`updateMin 5 0 = 0`): the final recorded minimum is 0, although
the claim asserts a zero duration never replaces a recorded nonzero
minimum. -/
theorem claim_C7_counterexample :
    (run envZeroDur).2.stats.write_count = 2 ∧
    updateMin 0 5 = 5 ∧
    updateMin 5 0 = 0 ∧
    (run envZeroDur).2.stats.write_duration_min = 0 ∧
    (run envZeroDur).2.stats.write_duration_max = 5 := by
  refine ⟨by decide, by decide, by decide, by decide, by decide⟩

/-- Claim C7 as amended: the minimum update (lines 159-161) sets
`min := d` exactly when `min = 0` or `d < min`; hence a zero duration always
becomes the new minimum — replacing even a recorded nonzero one — a first
duration always records itself, and for nonzero `d` against a nonzero
recorded `min` the rule computes the true minimum. The maximum half of the
claim is accurate: it starts at zero and is updated exactly when exceeded. -/
theorem claim_C7_amended (mn mx d : Nat) (hmn : mn ≠ 0) (_hd : d ≠ 0) :
    updateMin mn 0 = 0 ∧ updateMin 0 d = d ∧
    updateMin mn d = min mn d ∧ updateMax mx d = max mx d := by
  refine ⟨?_, ?_, ?_, ?_⟩
  · rcases Nat.eq_zero_or_pos mn with h | h <;> simp [updateMin, h]
  · simp [updateMin]
  · by_cases h : d < mn
    · rw [updateMin, if_pos (Or.inr h)]
      omega
    · rw [updateMin, if_neg (by push_neg; exact ⟨hmn, by omega⟩)]
      omega
  · by_cases h : d > mx
    · rw [updateMax, if_pos h]
      omega
    · rw [updateMax, if_neg h]
      omega

/-- Witness for the amended C7 at min 5, max 3, duration 2. -/
theorem claim_C7_amended_witness :
    updateMin 5 0 = 0 ∧ updateMin 0 2 = 2 ∧
    updateMin 5 2 = min 5 2 ∧ updateMax 3 2 = max 3 2 :=
  claim_C7_amended 5 3 2 (by decide) (by decide)

/-- Claim C9: each phase leaves the open-handle balance exactly as it found
it on every exit path (the mismatch path relies on the spec-modelled `File`
destructor), and a whole run leaks no handle. -/
theorem claim_C9_no_handle_leak (env : Env) (st : St) :
    ((write env st).2.openHandles = st.openHandles) ∧
    ((read env st).2.openHandles = st.openHandles) ∧
    ((run env).2.openHandles = 0) := by
  refine ⟨(write_phase_frame env st).2.2.2.2.2.1,
    (read_phase_frame env st).2.2.2.2.2.1, ?_⟩
  rcases run_handles_cases env with h | h
  · rw [h, (write_phase_frame env initSt).2.2.2.2.2.1]
    rfl
  · rw [h, (read_phase_frame env
      { (write env initSt).2 with
        chk := (write env initSt).2.chk + 1 }).2.2.2.2.2.1]
    show (write env initSt).2.openHandles = 0
    rw [(write_phase_frame env initSt).2.2.2.2.2.1]
    rfl

/-- Claim C10: if the read loop ends short of the target because the read
primitive fails at chunk `K < 1024` (after a fault-free write phase), the run
terminates with `FailReadIncomplete` — and the test file has nevertheless
already been deleted, because `f_unlink` runs whenever the read phase returns
`OK`, before the shortfall is classified. -/
theorem claim_C10_unlink_before_shortfall (env : Env) (K : Nat)
    (h1 : env.writeAllocOk = true) (h2 : env.openWriteOk = true)
    (h3 : env.readAllocOk = true) (h4 : env.openReadOk = true)
    (hterm : env.termAfter = none)
    (hwready : ∀ i, env.writeReady i = true)
    (hwok : ∀ i, env.writeOk i = true)
    (hrready : ∀ i, env.readReady i = true)
    (hoklt : ∀ i, i < K → env.readOk i = true)
    (hokK : env.readOk K = false)
    (hdata : ∀ i, i < K → readChunkData env i = patternChunk i)
    (hK : K ≤ 1023) :
    (run env).1 = Result.FailReadIncomplete ∧
    (run env).2.fileExists = false := by
  obtain ⟨hwOK, hwb, hwc⟩ := write_allOk env h1 h2 hterm hwready hwok initSt
    rfl rfl
  have hfw := write_phase_frame env initSt
  have c1 : ¬((write env initSt).1 ≠ Result.OK) := by rw [hwOK]; simp
  have c2 : ¬((write env initSt).2.stats.write_bytes < bytes_to_write) := by
    rw [hwb]; simp
  have c3 : checkTerm env ((write env initSt).2.chk) = false := by
    simp [checkTerm, hterm]
  obtain ⟨hrOK, hrb, hrc⟩ := read_failAt env K h3 h4 hterm hrready hoklt hokK
    hdata hK
    { (write env initSt).2 with
      chk := (write env initSt).2.chk + 1 }
    (by
      show (write env initSt).2.stats.read_bytes = 0
      rw [hfw.2.2.2.1]
      rfl)
    (by
      show (write env initSt).2.stats.read_count = 0
      rw [hfw.2.2.2.2.1]
      rfl)
  have c4 : ¬((read env
      { (write env initSt).2 with
        chk := (write env initSt).2.chk + 1 }).1 ≠ Result.OK) := by
    rw [hrOK]; simp
  have c5 : (read env
      { (write env initSt).2 with
        chk := (write env initSt).2.chk + 1 }).2.stats.read_bytes
      < bytes_to_read := by
    rw [hrb]; simp only [write_size, bytes_to_read, bytes_to_write]; omega
  simp only [run, if_neg c1, if_neg c2, c3, Bool.false_eq_true, if_false,
    if_neg c4, if_pos c5]
  exact ⟨by trivial, by trivial⟩

/-- Witness for C10: the read primitive fails on the very first chunk. -/
theorem claim_C10_unlink_before_shortfall_witness :
    (run envReadFail).1 = Result.FailReadIncomplete ∧
    (run envReadFail).2.fileExists = false :=
  claim_C10_unlink_before_shortfall envReadFail 0 rfl rfl rfl rfl rfl
    (fun _ => rfl) (fun _ => rfl) (fun _ => rfl)
    (fun i h => absurd h (Nat.not_lt_zero i)) rfl
    (fun i h => absurd h (Nat.not_lt_zero i)) (by decide)

/-- Claim C8: with every injected call succeeding, the storage faithfully
returning the written pattern, and no cancellation requested, the run
terminates `OK` (`Success`), both chunk counts equal 1024
(16 MiB / 16 KiB), and the temporary test file has been deleted. -/
theorem claim_C8_end_to_end (env : Env)
    (h1 : env.writeAllocOk = true) (h2 : env.openWriteOk = true)
    (h3 : env.readAllocOk = true) (h4 : env.openReadOk = true)
    (hterm : env.termAfter = none)
    (hwready : ∀ i, env.writeReady i = true)
    (hwok : ∀ i, env.writeOk i = true)
    (hrready : ∀ i, env.readReady i = true)
    (hrok : ∀ i, env.readOk i = true)
    (hdata : ∀ i, i < 1024 → readChunkData env i = patternChunk i) :
    (run env).1 = Result.OK ∧
    (run env).2.stats.write_count = 1024 ∧
    (run env).2.stats.read_count = 1024 ∧
    (run env).2.fileExists = false := by
  obtain ⟨hwOK, hwb, hwc⟩ := write_allOk env h1 h2 hterm hwready hwok initSt
    rfl rfl
  have hfw := write_phase_frame env initSt
  have c1 : ¬((write env initSt).1 ≠ Result.OK) := by rw [hwOK]; simp
  have c2 : ¬((write env initSt).2.stats.write_bytes < bytes_to_write) := by
    rw [hwb]; simp
  have c3 : checkTerm env ((write env initSt).2.chk) = false := by
    simp [checkTerm, hterm]
  obtain ⟨hrOK, hrb, hrc⟩ := read_allOk env h3 h4 hterm hrready hrok hdata
    { (write env initSt).2 with
      chk := (write env initSt).2.chk + 1 }
    (by
      show (write env initSt).2.stats.read_bytes = 0
      rw [hfw.2.2.2.1]
      rfl)
    (by
      show (write env initSt).2.stats.read_count = 0
      rw [hfw.2.2.2.2.1]
      rfl)
  have c4 : ¬((read env
      { (write env initSt).2 with
        chk := (write env initSt).2.chk + 1 }).1 ≠ Result.OK) := by
    rw [hrOK]; simp
  have c5 : ¬((read env
      { (write env initSt).2 with
        chk := (write env initSt).2.chk + 1 }).2.stats.read_bytes
      < bytes_to_read) := by
    rw [hrb]; simp
  have c6 : checkTerm env ((read env
      { (write env initSt).2 with
        chk := (write env initSt).2.chk + 1 }).2.chk) = false := by
    simp [checkTerm, hterm]
  have hfr := read_phase_frame env
    { (write env initSt).2 with
      chk := (write env initSt).2.chk + 1 }
  simp only [run, if_neg c1, if_neg c2, c3, Bool.false_eq_true, if_false,
    if_neg c4, if_neg c5, c6]
  refine ⟨by trivial, ?_, ?_, by trivial⟩
  · rw [hfr.2.2.2.2.1]
    exact hwc
  · exact hrc

/-- Witness for C8 at the fault-free environment with faithful storage. -/
theorem claim_C8_end_to_end_witness :
    (run envAllOk).1 = Result.OK ∧
    (run envAllOk).2.stats.write_count = 1024 ∧
    (run envAllOk).2.stats.read_count = 1024 ∧
    (run envAllOk).2.fileExists = false :=
  claim_C8_end_to_end envAllOk rfl rfl rfl rfl rfl (fun _ => rfl)
    (fun _ => rfl) (fun _ => rfl) (fun _ => rfl)
    (fun i _ => readChunkData_patternWord envAllOk rfl i)

/-- Claim C5, counterexample: a run with one write chunk of duration 5 inside
a phase of total duration 100 has `write_count = 1 > 0`, yet the claimed
invariant `min ≤ total/count ∧ total/count ≤ max` fails: the phase total
(which also spans pattern generation and loop bookkeeping) gives
`total/count = 100 > 5 = max`. -/
theorem claim_C5_counterexample :
    0 < (run envChunkGap).2.stats.write_count ∧
    ¬((run envChunkGap).2.stats.write_duration_min
        ≤ (run envChunkGap).2.stats.write_test_duration
            / (run envChunkGap).2.stats.write_count ∧
      (run envChunkGap).2.stats.write_test_duration
          / (run envChunkGap).2.stats.write_count
        ≤ (run envChunkGap).2.stats.write_duration_max) := by
  refine ⟨by decide, by decide⟩

/-- Claim C5 as amended: if the counter readings are strictly increasing
across the run (no wraparound, resolution finer than a chunk, so no chunk
duration is zero), then for each direction with a positive chunk count,
`min ≤ total/count` holds — provided the run did not end in `FailCompare`,
the one path that skips recording the read phase's total duration. The upper
bound `total/count ≤ max` of the original claim does not hold in general
(see the counterexample): the phase total includes pattern-generation and
bookkeeping overhead beyond the measured transfer calls. -/
theorem claim_C5_amended (env : Env) (hT : TimerOk env 8192)
    (hfc : (run env).1 ≠ Result.FailCompare) :
    (0 < (run env).2.stats.write_count →
      (run env).2.stats.write_duration_min ≤
        (run env).2.stats.write_test_duration /
          (run env).2.stats.write_count) ∧
    (0 < (run env).2.stats.read_count →
      (run env).2.stats.read_duration_min ≤
        (run env).2.stats.read_test_duration /
          (run env).2.stats.read_count) := by
  have hwB : initSt.tmr + 2 * loopFuel + 2 ≤ 8192 := by
    show 0 + 2 * loopFuel + 2 ≤ 8192
    simp [loopFuel]
  rcases run_cases5 env with ⟨hs, hrc⟩ | ⟨hs, hq⟩
  · constructor
    · rw [hs]
      exact write_minAvg env hT initSt hwB rfl rfl
    · rw [hrc]
      intro h
      exact absurd h (lt_irrefl 0)
  · constructor
    · rw [hs]
      have hf := read_phase_frame env
        { (write env initSt).2 with
          chk := (write env initSt).2.chk + 1 }
      rw [hf.1, hf.2.2.1, hf.2.2.2.2.1]
      exact write_minAvg env hT initSt hwB rfl rfl
    · rw [hs]
      have ht1 := write_tmr_le env initSt
      have hb1 : ({ (write env initSt).2 with
          chk := (write env initSt).2.chk + 1 } : St).tmr
          + 2 * loopFuel + 2 ≤ 8192 := by
        show (write env initSt).2.tmr + 2 * loopFuel + 2 ≤ 8192
        have h0 : initSt.tmr = 0 := rfl
        simp only [loopFuel] at ht1 ⊢
        omega
      have hfw := write_phase_frame env initSt
      have hcz : ({ (write env initSt).2 with
          chk := (write env initSt).2.chk + 1 } : St).stats.read_count = 0 := by
        show (write env initSt).2.stats.read_count = 0
        rw [hfw.2.2.2.2.1]
        rfl
      have hmz : ({ (write env initSt).2 with
          chk := (write env initSt).2.chk + 1 } : St).stats.read_duration_min
          = 0 := by
        show (write env initSt).2.stats.read_duration_min = 0
        rw [hfw.1]
        rfl
      have hne : (read env
          { (write env initSt).2 with
            chk := (write env initSt).2.chk + 1 }).1
          ≠ Result.FailCompare := by
        rcases hq with hOK | hrun
        · rw [hOK]; simp
        · rw [← hrun]; exact hfc
      exact read_minAvg env hT
        { (write env initSt).2 with
          chk := (write env initSt).2.chk + 1 } hb1 hcz hmz hne

/-- Witness for the amended C5: a strictly increasing counter and a run that
completes one write chunk and then stops (readiness lost), ending in
`FailWriteIncomplete`. -/
theorem claim_C5_amended_witness :
    TimerOk envOneChunk 8192 ∧
    (run envOneChunk).1 ≠ Result.FailCompare ∧
    ((0 < (run envOneChunk).2.stats.write_count →
      (run envOneChunk).2.stats.write_duration_min ≤
        (run envOneChunk).2.stats.write_test_duration /
          (run envOneChunk).2.stats.write_count) ∧
    (0 < (run envOneChunk).2.stats.read_count →
      (run envOneChunk).2.stats.read_duration_min ≤
        (run envOneChunk).2.stats.read_test_duration /
          (run envOneChunk).2.stats.read_count)) := by
  have hT : TimerOk envOneChunk 8192 := by
    intro n h
    show n % HAL_MOD < (n + 1) % HAL_MOD
    have e1 : n % HAL_MOD = n := Nat.mod_eq_of_lt (by norm_num [HAL_MOD]; omega)
    have e2 : (n + 1) % HAL_MOD = n + 1 :=
      Nat.mod_eq_of_lt (by norm_num [HAL_MOD]; omega)
    rw [e1, e2]
    omega
  have hfc : (run envOneChunk).1 ≠ Result.FailCompare := by decide
  exact ⟨hT, hfc, claim_C5_amended envOneChunk hT hfc⟩

end SDCardTestThread
